import Mathlib

/-!
Verification of the RV1106-RTL8723D-HFP toolkit against its specification.

Each section shallowly embeds one component of the Python sources:
* `H5` — the three-wire UART framing of
  `src/RV1106-BlueFusion-HFP/src/next_steps/rtk_firmware_loader.py` (`H5Protocol`);
* `RTK` — the firmware chunking of `RTL8723DFirmwareLoader.load_firmware`;
* `AutoConnect` — retry logic of `src/BlueFusion/src/interfaces/auto_connect_manager.py`;
* `SCO` — the MOS computation of
  `src/RV1106-BlueFusion-HFP/src/next_steps/advanced_sco_monitor.py`;
* `HexDump` — `PacketInspector._to_hex_dump` of
  `src/BlueFusion/src/analyzers/packet_inspector.py`;
* `PatternM` — `src/BlueFusion/src/analyzers/hex_pattern_matcher.py`;
* `HFP` — the AT-command state machine of `src/RV1106-BlueFusion-HFP/src/hfp_handler.py`.

Python `bytes` values are embedded as `List Nat` (each element < 256 where it
matters), `float` as `ℝ` (or `ℚ` where the code only adds, multiplies and
compares), and fallible operations as `Option`/`Except`.
-/

namespace H5

/-- Error outcomes of `H5Protocol.parse_packet`.  The Python code raises
`ValueError("Invalid H5 packet")`, `ValueError("Checksum mismatch")` — the
spec's `FrameCorrupt` — or the `ValueError` of an out-of-enum `H5PacketType`. -/
inductive H5Error where
  | invalid
  | checksumMismatch
  | badType
  deriving DecidableEq

/-- `H5PacketType` enum of `rtk_firmware_loader.py`. -/
inductive H5PacketType where
  | ACK
  | HCI_COMMAND
  | HCI_ACLDATA
  | HCI_SCODATA
  | HCI_EVENT
  | VENDOR
  | LINK_CONTROL
  deriving DecidableEq

/-- Integer value of each `H5PacketType` member. -/
def H5PacketType.val : H5PacketType → Nat
  | .ACK => 0x00
  | .HCI_COMMAND => 0x01
  | .HCI_ACLDATA => 0x02
  | .HCI_SCODATA => 0x03
  | .HCI_EVENT => 0x04
  | .VENDOR => 0x0E
  | .LINK_CONTROL => 0x0F

/-- `H5PacketType(n)`: the enum member with value `n`, if any. -/
def H5PacketType.ofVal (n : Nat) : Option H5PacketType :=
  if n = 0x00 then some .ACK
  else if n = 0x01 then some .HCI_COMMAND
  else if n = 0x02 then some .HCI_ACLDATA
  else if n = 0x03 then some .HCI_SCODATA
  else if n = 0x04 then some .HCI_EVENT
  else if n = 0x0E then some .VENDOR
  else if n = 0x0F then some .LINK_CONTROL
  else none

/-- XOR of a list of bytes, as computed by the `checksum ^= b` loops. -/
def xorBytes (l : List Nat) : Nat := l.foldl Nat.xor 0

/-- `H5Protocol.create_packet`, with the mutable `self.seq_num`/`self.ack_num`
passed explicitly (the method afterwards sets `seq_num := (seq_num + 1) % 8`,
which does not affect the produced frame).  Returns
`[0xC0, (seq<<3)|(ack&7), type&0xF, len&0xFF] ++ payload ++ [checksum, 0xC0]`
where the checksum XORs the three header bytes after the SLIP start and the
payload. -/
def create_packet (seq ack : Nat) (pktType : H5PacketType) (payload : List Nat) :
    List Nat :=
  let h1 := (seq <<< 3) ||| (ack &&& 0x07)
  let h2 := pktType.val &&& 0x0F
  let h3 := payload.length &&& 0xFF
  let checksum := xorBytes ([h1, h2, h3] ++ payload)
  [0xC0, h1, h2, h3] ++ payload ++ [checksum, 0xC0]

/-- `H5Protocol.parse_packet`.  Mirrors the source: reject frames shorter than
6 bytes or without `0xC0` delimiters; take `payload = data[4:-2]`,
`checksum = data[-2]`; recompute the XOR over `data[1:-2]`; on mismatch raise
the checksum error; finally convert `data[2] & 0x0F` through the enum.
(The method also stores `seq` into `self.ack_num`; that write does not affect
the returned value.) -/
def parse_packet (data : List Nat) : Except H5Error (H5PacketType × List Nat) :=
  if data.length < 6 ∨ data.getD 0 0 ≠ 0xC0 ∨ data.getD (data.length - 1) 0 ≠ 0xC0 then
    .error .invalid
  else
    let pktType := data.getD 2 0 &&& 0x0F
    let payload := (data.drop 4).take (data.length - 6)
    let checksum := data.getD (data.length - 2) 0
    let calcChecksum := xorBytes ((data.drop 1).take (data.length - 3))
    if calcChecksum ≠ checksum then .error .checksumMismatch
    else
      match H5PacketType.ofVal pktType with
      | some t => .ok (t, payload)
      | none => .error .badType

end H5

namespace RTK

/-- `struct.pack('<BH', 0x20, len(chunk)) + chunk`: the vendor command payload
for one firmware chunk in `RTL8723DFirmwareLoader.load_firmware`.  `<BH` packs
one unsigned byte followed by an unsigned 16-bit little-endian value. -/
def chunkPayload (chunk : List Nat) : List Nat :=
  0x20 :: (chunk.length % 256) :: (chunk.length / 256 % 256) :: chunk

/-- The `while offset < len(fw_data)` loop of `load_firmware`, fuel-bounded:
each iteration advances `offset` by 252, so `fw.length` iterations suffice. -/
def chunkLoop : Nat → Nat → List Nat → List (List Nat)
  | 0, _, _ => []
  | fuel + 1, offset, fw =>
    if offset < fw.length then
      let chunk := (fw.drop offset).take 252
      if chunk = [] then []
      else chunkPayload chunk :: chunkLoop fuel (offset + 252) fw
    else []

/-- The sequence of `0xFC20` command payloads `load_firmware` sends for a
firmware image `fw`: chunks of `chunk_size = 252` bytes starting at
`offset = 16` (skipping the parsed `FirmwareHeader`). -/
def firmwareChunkPayloads (fw : List Nat) : List (List Nat) :=
  chunkLoop fw.length 16 fw

/-- Each chunk is sent with `send_hci_command(0xFC20, download_packet)`. -/
def loadFirmwareCommands (fw : List Nat) : List (Nat × List Nat) :=
  (firmwareChunkPayloads fw).map (fun pl => (0xFC20, pl))

end RTK

namespace AutoConnect

/-- `RetryStrategy` enum of `auto_connect_manager.py`. -/
inductive RetryStrategy where
  | exponential_backoff
  | fixed_interval
  | linear_backoff
  deriving DecidableEq

/-- `ConnectionState` enum. -/
inductive ConnectionState where
  | disconnected
  | connecting
  | connected
  | reconnecting
  | failed
  | paused
  deriving DecidableEq

/-- `ConnectionPriority` enum. -/
inductive ConnectionPriority where
  | high
  | medium
  | low
  deriving DecidableEq

/-- `ConnectionConfig` dataclass with its Python defaults.  Time-valued
fields are embedded as `ℚ`. -/
structure ConnectionConfig where
  max_retries : Nat := 5
  initial_retry_delay : ℚ := 1
  max_retry_delay : ℚ := 60
  retry_strategy : RetryStrategy := .exponential_backoff
  connection_timeout : ℚ := 30
  stability_check_interval : ℚ := 10
  reconnect_on_failure : Bool := true
  health_check_interval : ℚ := 30
  max_consecutive_failures : Nat := 3
  priority : ConnectionPriority := .medium
  max_concurrent_connections : Nat := 5
  deriving DecidableEq

/-- `ConnectionMetrics` model with its defaults.  `datetime` fields are
embedded as rational timestamps. -/
structure ConnectionMetrics where
  total_attempts : Nat := 0
  successful_connections : Nat := 0
  failed_connections : Nat := 0
  last_connected : Option ℚ := none
  last_failure : Option ℚ := none
  average_connection_time : ℚ := 0
  connection_uptime : ℚ := 0
  stability_score : ℚ := 0
  consecutive_failures : Nat := 0
  deriving DecidableEq

/-- The mutable fields of `ManagedConnection.__init__` (the `address`
string and `connection_start_time`/`last_activity` bookkeeping fields do not
influence retry behaviour and are omitted). -/
structure ManagedConnection where
  config : ConnectionConfig
  state : ConnectionState := .disconnected
  metrics : ConnectionMetrics := {}
  retry_count : Nat := 0
  is_enabled : Bool := true
  pause_until : Option ℚ := none
  deriving DecidableEq

/-- `ManagedConnection.calculate_retry_delay`: strategy-dependent delay,
capped by `min(delay, config.max_retry_delay)`. -/
def calculate_retry_delay (c : ManagedConnection) : ℚ :=
  let delay :=
    match c.config.retry_strategy with
    | .exponential_backoff => c.config.initial_retry_delay * 2 ^ c.retry_count
    | .linear_backoff => c.config.initial_retry_delay * (1 + (c.retry_count : ℚ))
    | .fixed_interval => c.config.initial_retry_delay
  min delay c.config.max_retry_delay

/-- `ManagedConnection.should_retry`, with `datetime.now()` passed in as
`now`. -/
def should_retry (c : ManagedConnection) (now : ℚ) : Bool :=
  if ¬ c.is_enabled then false
  else if (match c.pause_until with | some u => decide (now < u) | none => false) then false
  else if c.retry_count ≥ c.config.max_retries then false
  else if c.metrics.consecutive_failures ≥ c.config.max_consecutive_failures then false
  else true

/-- `ManagedConnection.update_metrics`.  Note Python's
`if connection_time:` is falsy both for `None` and for `0.0`. -/
def update_metrics (m : ConnectionMetrics) (now : ℚ) (success : Bool)
    (connection_time : Option ℚ) : ConnectionMetrics :=
  let total := m.total_attempts + 1
  let m1 :=
    if success then
      let succ2 := m.successful_connections + 1
      let base := { m with
        total_attempts := total, successful_connections := succ2,
        last_connected := some now, consecutive_failures := 0 }
      match connection_time with
      | some ct =>
        if ct ≠ 0 then
          let total_time := m.average_connection_time * ((succ2 : ℚ) - 1)
          { base with average_connection_time := (total_time + ct) / (succ2 : ℚ) }
        else base
      | none => base
    else
      { m with
        total_attempts := total, failed_connections := m.failed_connections + 1,
        last_failure := some now, consecutive_failures := m.consecutive_failures + 1 }
  { m1 with stability_score := (m1.successful_connections : ℚ) / (total : ℚ) }

/-- The failure path of `AutoConnectManager._attempt_connection` (all three
`except`/`else` arms do the same state update): `state = FAILED`,
`retry_count += 1`, `update_metrics(False)`. -/
def failAttempt (now : ℚ) (c : ManagedConnection) : ManagedConnection :=
  { c with
    state := .failed, retry_count := c.retry_count + 1,
    metrics := update_metrics c.metrics now false none }

/-- The success path of `AutoConnectManager._attempt_connection`:
`state = CONNECTED`, `retry_count = 0`, `update_metrics(True, t)`. -/
def succeedAttempt (now connection_time : ℚ) (c : ManagedConnection) : ManagedConnection :=
  { c with
    state := .connected, retry_count := 0,
    metrics := update_metrics c.metrics now true (some connection_time) }

/-- The configuration of claim C3: `max_retries=3`, exponential strategy,
`initial_retry_delay=1.0`, `max_retry_delay=60.0`, default
`max_consecutive_failures`. -/
def c3Config : ConnectionConfig :=
  { max_retries := 3, initial_retry_delay := 1, max_retry_delay := 60,
    retry_strategy := .exponential_backoff }

/-- A fresh `ManagedConnection` under `c3Config`. -/
def c3Init : ManagedConnection := { config := c3Config }

end AutoConnect


namespace SCO

noncomputable section

/-- Python `round(x, 2)`: round to two decimal places.  (CPython rounds
half-to-even; Mathlib `round` rounds half up.  The two agree except at
exact ties, which do not arise in the values considered below.) -/
def pyRound2 (x : ℝ) : ℝ := (round (100 * x) : ℤ) / 100

/-- `AdvancedSCOMonitor._calculate_mos`, with Python floats embedded as
reals: subtract the packet-loss impairment `2.5*log(1+10*loss)` (only when
`loss > 0`), the latency impairment `(latency-150)*0.02` (only when
`latency > 150`) and the jitter impairment `jitter*0.1` from the base
R-factor `93.2`; return `1.0` when `R < 0`, `4.5` when `R > 100`, and the
cubic `1 + 0.035*R + 0.000007*R*(R-60)*(100-R)` otherwise; round to two
decimals.  There is no final clamp of the cubic's value to `[1.0, 4.5]`. -/
def calculate_mos (loss latency jitter : ℝ) : ℝ :=
  let r0 : ℝ := 93.2
  let r1 := if loss > 0 then r0 - 2.5 * Real.log (1 + 10 * loss) else r0
  let r2 := if latency > 150 then r1 - (latency - 150) * 0.02 else r1
  let r := r2 - jitter * 0.1
  let mos :=
    if r < 0 then 1.0
    else if r > 100 then 4.5
    else 1 + 0.035 * r + 0.000007 * r * (r - 60) * (100 - r)
  pyRound2 mos

end

end SCO

namespace HexDump

/-- Lowercase hex digit, as produced by Python `x` formatting. -/
def hexDigitChar (n : Nat) : Char :=
  if n < 10 then Char.ofNat (48 + n) else Char.ofNat (87 + n)

/-- Hex digits of `n`, most significant first (fuel-bounded; `n` itself is
ample fuel since the value shrinks by a factor 16 per digit). -/
def toHexAux : Nat → Nat → List Char
  | 0, _ => []
  | fuel + 1, n => if n = 0 then [] else toHexAux fuel (n / 16) ++ [hexDigitChar (n % 16)]

/-- Hex rendering of a natural number (`"0"` for zero). -/
def toHex (n : Nat) : List Char := if n = 0 then ['0'] else toHexAux (n + 1) n

/-- Zero-pad on the left to width `w` (Python `{v:0wx}` formatting). -/
def padLeftZeros (w : Nat) (s : List Char) : List Char :=
  List.replicate (w - s.length) '0' ++ s

/-- `f"{b:02x}"`. -/
def fmt02x (b : Nat) : List Char := padLeftZeros 2 (toHex b)

/-- `f"{i:04x}"`. -/
def fmt04x (i : Nat) : List Char := padLeftZeros 4 (toHex i)

/-- `sep.join(items)`. -/
def sepJoin (sep : List Char) : List (List Char) → List Char
  | [] => []
  | [x] => x
  | x :: y :: xs => x ++ sep ++ sepJoin sep (y :: xs)

/-- `' '.join(f"{b:02x}" for b in chunk)`. -/
def hexPart (chunk : List Nat) : List Char := sepJoin [' '] (chunk.map fmt02x)

/-- `''.join(chr(b) if 32 <= b < 127 else '.' for b in chunk)`. -/
def asciiPart (chunk : List Nat) : List Char :=
  chunk.map (fun b => if 32 ≤ b ∧ b < 127 then Char.ofNat b else '.')

/-- Left-justify to width `w` with spaces (Python `{s:<48}`). -/
def padRight (w : Nat) (s : List Char) : List Char :=
  s ++ List.replicate (w - s.length) ' '

/-- One output row: `f"{i:04x}: {hex_part:<48} {ascii_part}"`. -/
def dumpLine (i : Nat) (chunk : List Nat) : List Char :=
  fmt04x i ++ [':', ' '] ++ padRight 48 (hexPart chunk) ++ [' '] ++ asciiPart chunk

/-- Number of iterations of `range(0, len(data), 16)`. -/
def numRows (data : List Nat) : Nat := (data.length + 15) / 16

/-- The rows of `PacketInspector._to_hex_dump`: one `dumpLine` per
`i in range(0, len(data), 16)` over the chunk `data[i:i+16]`. -/
def hexDumpLines (data : List Nat) : List (List Char) :=
  (List.range (numRows data)).map (fun k => dumpLine (16 * k) ((data.drop (16 * k)).take 16))

/-- `PacketInspector._to_hex_dump`: empty string for empty data, otherwise
the rows joined with newlines. -/
def to_hex_dump (data : List Nat) : List Char :=
  if data = [] then [] else sepJoin ['\n'] (hexDumpLines data)

/-- Claim C8 as stated: for non-empty data the dump has `ceil(len/16)` rows
and every row's ASCII gutter prints exactly 16 characters. -/
def c8Claim : Prop :=
  ∀ data : List Nat, data ≠ [] →
    (hexDumpLines data).length = (data.length + 15) / 16 ∧
    ∀ k, k < numRows data → (asciiPart ((data.drop (16 * k)).take 16)).length = 16

end HexDump

namespace HFP

/-- Characters of a Lean string literal, used to embed Python `str` values
as `List Char`. -/
def sToL (s : String) : List Char := s.data

/-- Python `str.split(sep)` for a one-character separator (the only kind the
handler uses: `"="`, `":"`, `","`). -/
def splitOnChar (sep : Char) : List Char → List (List Char)
  | [] => [[]]
  | c :: cs =>
    if c = sep then [] :: splitOnChar sep cs
    else
      match splitOnChar sep cs with
      | [] => [[c]]
      | t :: ts => (c :: t) :: ts

/-- Python whitespace stripped by `str.strip()` / ignored by `int()`. -/
def isPySpace (c : Char) : Bool :=
  c = ' ' ∨ c = '\t' ∨ c = '\n' ∨ c = '\r' ∨ c = '\x0b' ∨ c = '\x0c'

/-- Python `str.strip()`. -/
def trimChars (s : List Char) : List Char :=
  ((s.dropWhile isPySpace).reverse.dropWhile isPySpace).reverse

def isDigitChar (c : Char) : Bool := '0' ≤ c ∧ c ≤ '9'

/-- Value of a digit string under the usual left fold. -/
def digitsVal (s : List Char) : Nat :=
  s.foldl (fun a c => a * 10 + (c.toNat - 48)) 0

/-- `s.startswith(pre)`. -/
def pyStartsWith : List Char → List Char → Bool
  | _, [] => true
  | [], _ :: _ => false
  | c :: cs, p :: ps => c = p && pyStartsWith cs ps

/-- Python `int(s)`: strip whitespace, optional sign, then decimal digits;
any other shape raises `ValueError` (`none` here).  (Underscore separators
are not modelled; none of the handler's inputs contain them.) -/
def pyInt (s : List Char) : Option Int :=
  let t := trimChars s
  match t with
  | '-' :: ds => if ds ≠ [] ∧ ds.all isDigitChar then some (-(digitsVal ds : Int)) else none
  | '+' :: ds => if ds ≠ [] ∧ ds.all isDigitChar then some ((digitsVal ds : Int)) else none
  | ds => if ds ≠ [] ∧ ds.all isDigitChar then some ((digitsVal ds : Int)) else none

/-- Python list indexing `l[i]` with negative indices counting from the end;
`none` is an `IndexError`. -/
def pyIndex {α : Type} (l : List α) (i : Int) : Option α :=
  let j := if i < 0 then (l.length : Int) + i else i
  if 0 ≤ j then l.get? j.toNat else none

/-- `HFPState` enum. -/
inductive HFPState where
  | DISCONNECTED
  | CONNECTING
  | SLC_CONNECTING
  | CONNECTED
  | AUDIO_CONNECTING
  | AUDIO_CONNECTED
  | DISCONNECTING
  deriving DecidableEq

/-- `ATCommand` dataclass (timestamps as `ℚ`). -/
structure ATCommand where
  timestamp : ℚ
  command : List Char
  response : List Char
  direction : List Char
  state : HFPState
  deriving DecidableEq

/-- `HFPFeatures` dataclass. -/
structure HFPFeatures where
  ec_nr : Bool := false
  three_way_calling : Bool := false
  cli_presentation : Bool := false
  voice_recognition : Bool := false
  remote_volume_control : Bool := false
  enhanced_call_status : Bool := false
  enhanced_call_control : Bool := false
  codec_negotiation : Bool := false
  hf_indicators : Bool := false
  esco_s4 : Bool := false
  ag_three_way_calling : Bool := false
  ag_ec_nr : Bool := false
  ag_voice_recognition : Bool := false
  ag_inband_ringtone : Bool := false
  ag_voice_tag : Bool := false
  ag_reject_call : Bool := false
  ag_enhanced_call_status : Bool := false
  ag_enhanced_call_control : Bool := false
  ag_extended_error : Bool := false
  ag_codec_negotiation : Bool := false
  deriving DecidableEq

/-- One indicator's `{'range': ..., 'value': ...}` dict. -/
structure IndInfo where
  range : List Char
  value : Int
  deriving DecidableEq

/-- The `self.call_state` dict. -/
structure CallState where
  active : Bool := false
  incoming : Bool := false
  outgoing : Bool := false
  number : Option (List Char) := none
  deriving DecidableEq

/-- The mutable state of `HFPProtocolHandler` (role and logger omitted: the
handler never branches on them). `indicators` is the insertion-ordered
item list of the Python dict. -/
structure HFPHandlerState where
  state : HFPState := .DISCONNECTED
  features : HFPFeatures := {}
  at_command_flow : List ATCommand := []
  supported_codecs : List (List Char) := [sToL "CVSD"]
  selected_codec : List Char := sToL "CVSD"
  indicators : List (List Char × IndInfo) := []
  call_state : CallState := {}
  deriving DecidableEq

/-- `self.indicators[name] = value`: Python dict assignment keeps the
position of an existing key and appends a new one. -/
def dictSet (l : List (List Char × IndInfo)) (k : List Char) (v : IndInfo) :
    List (List Char × IndInfo) :=
  match l with
  | [] => [(k, v)]
  | (k', v') :: rest => if k' = k then (k, v) :: rest else (k', v') :: dictSet rest k v

/-- `self.indicators[name]['value'] = value`: mutate the nested dict of the
(unique) entry with key `name`. -/
def dictSetValue (l : List (List Char × IndInfo)) (k : List Char) (v : Int) :
    List (List Char × IndInfo) :=
  match l with
  | [] => []
  | (k', v') :: rest =>
    if k' = k then (k', { v' with value := v }) :: rest
    else (k', v') :: dictSetValue rest k v

/-- `_parse_hf_features`: set each HF flag from its bit of the mask
(`bool(features & bit)`).  The mask is taken as a natural number: a negative
`AT+BRSF=` value never occurs in an HFP feature exchange. -/
def parseHfFeatures (features : Nat) (f : HFPFeatures) : HFPFeatures :=
  { f with
    ec_nr := features &&& 0x01 ≠ 0
    three_way_calling := features &&& 0x02 ≠ 0
    cli_presentation := features &&& 0x04 ≠ 0
    voice_recognition := features &&& 0x08 ≠ 0
    remote_volume_control := features &&& 0x10 ≠ 0
    enhanced_call_status := features &&& 0x20 ≠ 0
    enhanced_call_control := features &&& 0x40 ≠ 0
    codec_negotiation := features &&& 0x80 ≠ 0
    hf_indicators := features &&& 0x100 ≠ 0
    esco_s4 := features &&& 0x200 ≠ 0 }

/-- `_parse_ag_features`, under the same non-negative mask convention. -/
def parseAgFeatures (features : Nat) (f : HFPFeatures) : HFPFeatures :=
  { f with
    ag_three_way_calling := features &&& 0x01 ≠ 0
    ag_ec_nr := features &&& 0x02 ≠ 0
    ag_voice_recognition := features &&& 0x04 ≠ 0
    ag_inband_ringtone := features &&& 0x08 ≠ 0
    ag_voice_tag := features &&& 0x10 ≠ 0
    ag_reject_call := features &&& 0x20 ≠ 0
    ag_enhanced_call_status := features &&& 0x40 ≠ 0
    ag_enhanced_call_control := features &&& 0x80 ≠ 0
    ag_extended_error := features &&& 0x100 ≠ 0
    ag_codec_negotiation := features &&& 0x200 ≠ 0 }

def isWordChar (c : Char) : Bool :=
  ('a' ≤ c ∧ c ≤ 'z') ∨ ('A' ≤ c ∧ c ≤ 'Z') ∨ ('0' ≤ c ∧ c ≤ '9') ∨ c = '_'

def isRangeChar (c : Char) : Bool := ('0' ≤ c ∧ c ≤ '9') ∨ c = ',' ∨ c = '-'

/-- After an opening `"` at some position, try to complete one match of the
regex `"(\w+)",\(([0-9,-]+)\)`: a non-empty greedy run of word characters,
the literal `",(`, a non-empty greedy run of `[0-9,-]`, and `)`.  (Greedy
runs need no backtracking here because the characters that follow each run
in the pattern are outside its class.)  Returns the two groups and the
remaining input after the match. -/
def cindTryMatch (s : List Char) : Option (List Char × List Char × List Char) :=
  let w := s.takeWhile isWordChar
  let r1 := s.dropWhile isWordChar
  if w = [] then none
  else
    match r1 with
    | '"' :: ',' :: '(' :: r2 =>
      let d := r2.takeWhile isRangeChar
      let r3 := r2.dropWhile isRangeChar
      if d = [] then none
      else
        match r3 with
        | ')' :: r4 => some (w, d, r4)
        | _ => none
    | _ => none

/-- `re.findall(r'"(\w+)",\(([0-9,-]+)\)', s)`: scan left to right for
non-overlapping matches (fuel-bounded; every step consumes at least one
character, so `s.length` steps suffice). -/
def scanCINDAux : Nat → List Char → List (List Char × List Char)
  | 0, _ => []
  | _ + 1, [] => []
  | fuel + 1, c :: rest =>
    if c = '"' then
      match cindTryMatch rest with
      | some (w, d, remain) => (w, d) :: scanCINDAux fuel remain
      | none => scanCINDAux fuel rest
    else scanCINDAux fuel rest

def scanCIND (s : List Char) : List (List Char × List Char) := scanCINDAux s.length s

/-- `_parse_indicators`: register `{'range': range_str, 'value': 0}` for
every regex match, into the existing dict. -/
def parseIndicators (cind : List Char) (l : List (List Char × IndInfo)) :
    List (List Char × IndInfo) :=
  (scanCIND cind).foldl (fun acc nr => dictSet acc nr.1 { range := nr.2, value := 0 }) l

/-- `call_state` updates at the end of `_handle_indicator_event`. -/
def updateCallState (name : List Char) (value : Int) (s : HFPHandlerState) : HFPHandlerState :=
  if name = sToL "call" then
    { s with call_state := { s.call_state with active := value = 1 } }
  else if name = sToL "callsetup" then
    { s with call_state :=
      { s.call_state with incoming := value = 1, outgoing := value = 2 } }
  else s

/-- `_handle_indicator_event`.  `none` models the `IndexError` of
`ind_names[indicator_idx - 1]`; a `ValueError` from `int()` aborts the
branch before any mutation, leaving the state unchanged. -/
def handleIndicatorEvent (ciev : List Char) (s : HFPHandlerState) : Option HFPHandlerState :=
  let parts := splitOnChar ':' ciev
  if parts.length > 1 then
    let ind_val := splitOnChar ',' (parts.getD 1 [])
    if ind_val.length = 2 then
      match pyInt (ind_val.getD 0 []), pyInt (ind_val.getD 1 []) with
      | some indicator_idx, some value =>
        let ind_names := s.indicators.map Prod.fst
        if indicator_idx ≤ (ind_names.length : Int) then
          match pyIndex ind_names (indicator_idx - 1) with
          | some ind_name =>
            some (updateCallState ind_name value
              { s with indicators := dictSetValue s.indicators ind_name value })
          | none => none
        else some s
      | _, _ => some s
    else some s
  else some s

/-- `_handle_outgoing_command`.  Note the dispatch: `AT+BRSF=` by prefix,
everything else by exact string equality.  An `int()` `ValueError` aborts
the branch before any mutation. -/
def handleOutgoingCommand (command : List Char) (s : HFPHandlerState) : HFPHandlerState :=
  if pyStartsWith command (sToL "AT+BRSF=") then
    match pyInt ((splitOnChar '=' command).getD 1 []) with
    | some features =>
      { s with features := parseHfFeatures features.toNat s.features, state := .SLC_CONNECTING }
    | none => s
  else if command = sToL "AT+BAC" then { s with state := .SLC_CONNECTING }
  else if command = sToL "AT+CIND=?" then s
  else if command = sToL "AT+CIND?" then s
  else if command = sToL "AT+CMER" then { s with state := .CONNECTED }
  else if command = sToL "AT+BCC" then { s with state := .AUDIO_CONNECTING }
  else s

/-- `_handle_incoming_command`. -/
def handleIncomingCommand (command _response : List Char) (s : HFPHandlerState) :
    HFPHandlerState :=
  if pyStartsWith command (sToL "+BRSF:") then
    match pyInt ((splitOnChar ':' command).getD 1 []) with
    | some features => { s with features := parseAgFeatures features.toNat s.features }
    | none => s
  else if pyStartsWith command (sToL "+BAC:") then
    let codecs := splitOnChar ',' ((splitOnChar ':' command).getD 1 [])
    { s with
      supported_codecs := codecs.foldl (fun acc c =>
        if trimChars c = sToL "1" then acc ++ [sToL "CVSD"]
        else if trimChars c = sToL "2" then acc ++ [sToL "mSBC"]
        else acc) [] }
  else if pyStartsWith command (sToL "+BCS:") then
    match pyInt ((splitOnChar ':' command).getD 1 []) with
    | some codec_id =>
      { s with
        selected_codec := if codec_id = 2 then sToL "mSBC" else sToL "CVSD",
        state := .AUDIO_CONNECTED }
    | none => s
  else if pyStartsWith command (sToL "+CIND:") then
    { s with indicators := parseIndicators command s.indicators }
  else if pyStartsWith command (sToL "+CIEV:") then
    (handleIndicatorEvent command s).getD s
  else s

/-- `process_at_command(command, response, direction)` at wall-clock `now`:
append the (stripped) record to the flow, then dispatch on direction.  An
exception escaping a handler leaves the already-appended record in place. -/
def process_at_command (now : ℚ) (command response direction : List Char)
    (s : HFPHandlerState) : HFPHandlerState :=
  let at_cmd : ATCommand :=
    { timestamp := now, command := trimChars command, response := trimChars response,
      direction := direction, state := s.state }
  let s1 := { s with at_command_flow := s.at_command_flow ++ [at_cmd] }
  if direction = sToL "TX" then handleOutgoingCommand command s1
  else handleIncomingCommand command response s1

/-- Fold `process_at_command` over a list of
`(now, command, response, direction)` quadruples. -/
def processList (cmds : List (ℚ × List Char × List Char × List Char))
    (s : HFPHandlerState) : HFPHandlerState :=
  cmds.foldl (fun st c => process_at_command c.1 c.2.1 c.2.2.1 c.2.2.2 st) s

/-- `any(cmd.command.startswith("+BCS") for cmd in self.at_command_flow)`. -/
def bcsSeen (s : HFPHandlerState) : Bool :=
  s.at_command_flow.any (fun cmd => pyStartsWith cmd.command (sToL "+BCS"))

/-- The consecutive timestamp differences of the command flow. -/
def cmdDelays : List ATCommand → List ℚ
  | a :: b :: rest => (b.timestamp - a.timestamp) :: cmdDelays (b :: rest)
  | _ => []

/-- Digits of a natural number (fuel-bounded). -/
def natRenderAux : Nat → Nat → List Char
  | 0, _ => []
  | fuel + 1, n =>
    if n < 10 then [Char.ofNat (48 + n)]
    else natRenderAux fuel (n / 10) ++ [Char.ofNat (48 + n % 10)]

/-- Decimal rendering of a natural number. -/
def natRender (n : Nat) : List Char := natRenderAux (n + 1) n

/-- `f"{avg:.2f}"` for a non-negative rational (the only case the analyzer
produces): round to hundredths half-up (CPython formats floats half-even;
the difference shows only at exact ties). -/
def fmt2f (q : ℚ) : List Char :=
  let n := (round (100 * q) : ℤ).toNat
  natRender (n / 100) ++ '.' :: (if n % 100 < 10 then '0' :: natRender (n % 100) else natRender (n % 100))

/-- The `likely_issues` list built by `analyze_failure`. -/
def analyzeLikelyIssues (s : HFPHandlerState) : List (List Char) :=
  let issues1 :=
    if s.state = .SLC_CONNECTING then
      let base := [sToL "Service Level Connection failed"]
      if s.features.codec_negotiation ∧ ¬ bcsSeen s then
        base ++ [sToL "Codec negotiation incomplete"]
      else base
    else if s.state = .AUDIO_CONNECTING then
      let base := [sToL "SCO audio connection failed"]
      if (sToL "mSBC") ∈ s.supported_codecs ∧ s.selected_codec = sToL "CVSD" then
        base ++ [sToL "mSBC available but not selected"]
      else base
    else []
  if s.at_command_flow.length > 1 then
    let ds := cmdDelays s.at_command_flow
    let avg := ds.foldl (· + ·) 0 / (ds.length : ℚ)
    if avg > 1 then
      issues1 ++ [sToL "Slow command response (avg: " ++ fmt2f avg ++ sToL "s)"]
    else issues1
  else issues1

/-- The C4 six-command trace (`0x80 = 128`, `0x200 = 512`), all at time 0. -/
def c4Trace : List (ℚ × List Char × List Char × List Char) :=
  [ (0, sToL "AT+BRSF=128", [], sToL "TX"),
    (0, sToL "+BRSF:512", [], sToL "RX"),
    (0, sToL "AT+BAC=1,2", [], sToL "TX"),
    (0, sToL "AT+CIND=?", [], sToL "TX"),
    (0, sToL "+CIND: (\"call\",(0,1)),(\"callsetup\",(0-3))", [], sToL "RX"),
    (0, sToL "AT+CMER=3,0,0,1", [], sToL "TX") ]

/-- The handler state after the C4 trace. -/
def c4State6 : HFPHandlerState := processList c4Trace {}

/-- The handler state after additionally sending `AT+BCC`. -/
def c4State7 : HFPHandlerState := process_at_command 0 (sToL "AT+BCC") [] (sToL "TX") c4State6

/-- `+CIEV:<i>,<v>` rendered as the handler receives it. -/
def renderCIEV (i v : Nat) : List Char := sToL "+CIEV:" ++ natRender i ++ ',' :: natRender v

/-- Updating the `value` of the `k`-th registered indicator in place. -/
def setIndicatorValue (l : List (List Char × IndInfo)) (k : Nat) (v : Int) :
    List (List Char × IndInfo) :=
  match l.get? k with
  | some nmi => l.set k (nmi.1, { nmi.2 with value := v })
  | none => l

end HFP

namespace PatternM

/-- `Pattern` dataclass.  `hex_pattern` is `pattern.hex()`. -/
structure Pattern where
  pattern : List Nat
  hex_pattern : List Char
  positions : List Nat
  length : Nat
  count : Nat
  frequency : ℚ
  deriving DecidableEq

/-- `bytes.hex()`: two lowercase hex digits per byte. -/
def hexKey (l : List Nat) : List Char := (l.map HexDump.fmt02x).flatten

/-- Whether `pattern` occurs in `data` at `pos` (a full-length slice match). -/
def matchesAt (data pat : List Nat) (pos : Nat) : Bool :=
  decide ((data.drop pos).take pat.length = pat)

/-- `_find_pattern_positions`: the loop `pos = data.find(pattern, start);
start = pos + 1` visits every occurrence once, in increasing order, i.e. it
returns exactly the positions at which the pattern matches. -/
def find_pattern_positions (data pat : List Nat) : List Nat :=
  (List.range data.length).filter (matchesAt data pat)

/-- One iteration of the inner `for start in range(...)` loop of
`_find_all_patterns`: skip if the hex key is already a dict key, otherwise
find the positions and keep the pattern when it occurs at least twice. -/
def considerPattern (data : List Nat) (plen : Nat) (acc : List Pattern) (start : Nat) :
    List Pattern :=
  let pattern_bytes := (data.drop start).take plen
  let key := hexKey pattern_bytes
  if acc.any (fun p => p.hex_pattern = key) then acc
  else
    let positions := find_pattern_positions data pattern_bytes
    if positions.length ≥ 2 then
      acc ++ [{ pattern := pattern_bytes, hex_pattern := key, positions := positions,
                length := plen, count := positions.length,
                frequency := ((positions.length : Nat) : ℚ) /
                  (((data.length - plen + 1 : Nat)) : ℚ) }]
    else acc

/-- `_find_all_patterns` (with the default `min_pattern_length = 2`,
`max_pattern_length = 32`): nested loops over
`pattern_len in range(2, min(33, len//2 + 1))` and
`start in range(len - pattern_len + 1)`, accumulating the insertion-ordered
dict values. -/
def find_all_patterns_pre (data : List Nat) : List Pattern :=
  (List.range' 2 (min 33 (data.length / 2 + 1) - 2)).foldl
    (fun acc plen =>
      (List.range (data.length - plen + 1)).foldl (considerPattern data plen) acc)
    []

/-- Strict lexicographic greater on sort keys. -/
def keyGT (a b : Nat × Nat) : Bool := a.1 > b.1 ∨ (a.1 = b.1 ∧ a.2 > b.2)

/-- Insert into a descending-sorted list after all entries with a key not
smaller (the stable position). -/
def insertByGT (key : Pattern → Nat × Nat) (x : Pattern) : List Pattern → List Pattern
  | [] => [x]
  | y :: ys => if keyGT (key x) (key y) then x :: y :: ys else y :: insertByGT key x ys

/-- Python `sorted(l, key=key, reverse=True)`: stable descending sort. -/
def sortByKeyDesc (key : Pattern → Nat × Nat) (l : List Pattern) : List Pattern :=
  l.foldl (fun acc x => insertByGT key x acc) []

/-- `set(range(pos, pos + length))`. -/
def posRange (pos len : Nat) : Finset ℕ := (Finset.range len).image (pos + ·)

/-- The `new_positions` set built for one pattern in
`_filter_overlapping_patterns`: the union of those occurrence ranges not
already fully covered. -/
def patNewPositions (covered : Finset ℕ) (p : Pattern) : Finset ℕ :=
  p.positions.foldl
    (fun s pos => if posRange pos p.length ⊆ covered then s else s ∪ posRange pos p.length) ∅

/-- One step of the filtering loop: keep the pattern iff `new_positions` is
non-empty, then add them to `covered_positions`. -/
def filterStep (acc : List Pattern × Finset ℕ) (p : Pattern) : List Pattern × Finset ℕ :=
  let np := patNewPositions acc.2 p
  if np ≠ ∅ then (acc.1 ++ [p], acc.2 ∪ np) else acc

/-- `_filter_overlapping_patterns`: sort by `(length, count)` descending and
keep the patterns that cover new positions. -/
def filter_overlapping_patterns (l : List Pattern) : List Pattern :=
  ((sortByKeyDesc (fun p => (p.length, p.count)) l).foldl filterStep ([], ∅)).1

/-- `_find_all_patterns` returns the filtered list. -/
def find_all_patterns (data : List Nat) : List Pattern :=
  filter_overlapping_patterns (find_all_patterns_pre data)

/-- The `patterns` field of `HexPatternMatcher.analyze`: empty for empty or
too-short data, else the found patterns sorted by `(count, length)`
descending. -/
def analyze_patterns (data : List Nat) : List Pattern :=
  if data = [] ∨ data.length < 2 then []
  else sortByKeyDesc (fun p => (p.count, p.length)) (find_all_patterns data)

/-- All byte positions covered by a pattern's occurrences. -/
def patCoverage (p : Pattern) : Finset ℕ :=
  p.positions.foldl (fun s pos => s ∪ posRange pos p.length) ∅

/-- The single pattern found in `[1,2,1,2]`: bytes `[1,2]` at positions 0
and 2. -/
def c6WitnessPattern : Pattern :=
  { pattern := [1, 2], hex_pattern := ['0', '1', '0', '2'], positions := [0, 2],
    length := 2, count := 2, frequency := (((2 : Nat)) : ℚ) / (((3 : Nat)) : ℚ) }

end PatternM

/-! ## Theorems -/

namespace RTK

lemma chunkLoop_spec (fw : List Nat) :
    ∀ fuel offset, fw.length ≤ offset + 252 * fuel →
      (∀ pl ∈ chunkLoop fuel offset fw, ∃ chunk : List Nat,
          chunk ≠ [] ∧ chunk.length ≤ 252 ∧ pl = chunkPayload chunk) ∧
      ((chunkLoop fuel offset fw).map (fun pl => pl.drop 3)).flatten = fw.drop offset := by
  intro fuel
  induction fuel with
  | zero =>
    intro offset h
    simp only [Nat.mul_zero, Nat.add_zero] at h
    constructor
    · intro pl hpl
      simp [chunkLoop] at hpl
    · simp [chunkLoop, List.drop_eq_nil_of_le h]
  | succ n ih =>
    intro offset h
    by_cases hoff : offset < fw.length
    · have hchunklen : ((fw.drop offset).take 252).length = min 252 (fw.length - offset) := by
        simp
      have hne : (fw.drop offset).take 252 ≠ [] := by
        intro hnil
        rw [hnil] at hchunklen
        simp at hchunklen
        omega
      have hrec := ih (offset + 252) (by omega)
      constructor
      · intro pl hpl
        rw [chunkLoop] at hpl
        simp only [if_pos hoff, if_neg hne, List.mem_cons] at hpl
        rcases hpl with rfl | hpl
        · exact ⟨(fw.drop offset).take 252, hne, by simp, rfl⟩
        · exact hrec.1 pl hpl
      · rw [chunkLoop]
        simp only [if_pos hoff, if_neg hne, List.map_cons, List.flatten]
        rw [hrec.2]
        have : (chunkPayload ((fw.drop offset).take 252)).drop 3 = (fw.drop offset).take 252 := rfl
        rw [this]
        rw [show fw.drop (offset + 252) = (fw.drop offset).drop 252 from by
          rw [List.drop_drop, Nat.add_comm]]
        exact List.take_append_drop 252 (fw.drop offset)
    · constructor
      · intro pl hpl
        rw [chunkLoop] at hpl
        simp [if_neg hoff] at hpl
      · rw [chunkLoop]
        simp [if_neg hoff, List.drop_eq_nil_of_le (by omega : fw.length ≤ offset)]

/-- C2 amended: `load_firmware` streams the firmware body following the
16-byte header in chunks of at most 252 bytes via vendor opcode `0xFC20`,
each chunk's command payload prefixed by the constant byte `0x20` (not a
running chunk index) followed by the chunk length as a u16 little-endian. -/
theorem c2_amended (fw : List Nat) :
    (∀ pl ∈ firmwareChunkPayloads fw, ∃ chunk : List Nat,
        chunk ≠ [] ∧ chunk.length ≤ 252 ∧
        pl = 0x20 :: (chunk.length % 256) :: (chunk.length / 256 % 256) :: chunk) ∧
    ((firmwareChunkPayloads fw).map (fun pl => pl.drop 3)).flatten = fw.drop 16 ∧
    ∀ cmd ∈ loadFirmwareCommands fw, cmd.1 = 0xFC20 := by
  have h := chunkLoop_spec fw fw.length 16 (by omega)
  refine ⟨fun pl hpl => ?_, h.2, fun cmd hcmd => ?_⟩
  · obtain ⟨chunk, h1, h2, h3⟩ := h.1 pl hpl
    exact ⟨chunk, h1, h2, h3⟩
  · simp only [loadFirmwareCommands, List.mem_map] at hcmd
    obtain ⟨pl, _, rfl⟩ := hcmd
    rfl

set_option maxRecDepth 4000 in
/-- C2 counterexample: a 269-byte firmware image is sent as two chunks whose
command payloads both start with `0x20`; a running-index `u8` prefix would
have to differ between the two chunks (0 and 1, or 1 and 2), and `0x20` is
none of those values. -/
theorem c2_counterexample :
    (firmwareChunkPayloads (List.replicate 269 0)).length = 2 ∧
    (firmwareChunkPayloads (List.replicate 269 0)).map (fun pl => pl.getD 0 0) =
      [0x20, 0x20] ∧
    (0x20 : Nat) ≠ 0 ∧ (0x20 : Nat) ≠ 1 ∧ (0x20 : Nat) ≠ 2 := by
  refine ⟨by decide, by decide, by decide, by decide, by decide⟩

/-- Witness for C2 (amended) on a 17-byte firmware image with body `[7]`:
its single command payload is `[0x20, 1, 0, 7]`. -/
theorem c2_amended_witness :
    (∃ chunk : List Nat, chunk ≠ [] ∧ chunk.length ≤ 252 ∧
        [0x20, 1, 0, 7] = 0x20 :: (chunk.length % 256) :: (chunk.length / 256 % 256) :: chunk) ∧
    ((firmwareChunkPayloads (List.replicate 16 0 ++ [7])).map (fun pl => pl.drop 3)).flatten =
      (List.replicate 16 0 ++ [7]).drop 16 ∧
    (0xFC20, [0x20, 1, 0, 7]).1 = 0xFC20 :=
  ⟨(c2_amended (List.replicate 16 0 ++ [7])).1 [0x20, 1, 0, 7] (by decide),
   (c2_amended (List.replicate 16 0 ++ [7])).2.1,
   (c2_amended (List.replicate 16 0 ++ [7])).2.2 (0xFC20, [0x20, 1, 0, 7]) (by decide)⟩

end RTK

namespace H5

lemma parse_packet_shape (h1 h2 h3 cs : Nat) (p : List Nat) :
    parse_packet ([0xC0, h1, h2, h3] ++ p ++ [cs, 0xC0]) =
      if xorBytes ([h1, h2, h3] ++ p) ≠ cs then .error .checksumMismatch
      else
        match H5PacketType.ofVal (h2 &&& 0x0F) with
        | some t => .ok (t, p)
        | none => .error .badType := by
  have hassoc : [0xC0, h1, h2, h3] ++ p ++ [cs, 0xC0] =
      ([0xC0, h1, h2, h3] ++ p) ++ [cs, 0xC0] := by
    simp [List.append_assoc]
  have hlen : ([0xC0, h1, h2, h3] ++ p ++ [cs, 0xC0]).length = p.length + 6 := by
    simp
  have h0 : ([0xC0, h1, h2, h3] ++ p ++ [cs, 0xC0]).getD 0 0 = 0xC0 := rfl
  have hlast : ([0xC0, h1, h2, h3] ++ p ++ [cs, 0xC0]).getD (p.length + 6 - 1) 0 = 0xC0 := by
    rw [hassoc, List.getD_append_right _ _ _ _ (by simp)]
    simp
  have hck : ([0xC0, h1, h2, h3] ++ p ++ [cs, 0xC0]).getD (p.length + 6 - 2) 0 = cs := by
    rw [hassoc, List.getD_append_right _ _ _ _ (by simp)]
    simp
  have hty : ([0xC0, h1, h2, h3] ++ p ++ [cs, 0xC0]).getD 2 0 = h2 := rfl
  have hpay : (([0xC0, h1, h2, h3] ++ p ++ [cs, 0xC0]).drop 4).take (p.length + 6 - 6) = p := by
    have hdrop : ([0xC0, h1, h2, h3] ++ p ++ [cs, 0xC0]).drop 4 = p ++ [cs, 0xC0] := rfl
    rw [hdrop]
    simpa using List.take_left p [cs, 0xC0]
  have hcalc : (([0xC0, h1, h2, h3] ++ p ++ [cs, 0xC0]).drop 1).take (p.length + 6 - 3) =
      [h1, h2, h3] ++ p := by
    have hdrop : ([0xC0, h1, h2, h3] ++ p ++ [cs, 0xC0]).drop 1 =
        ([h1, h2, h3] ++ p) ++ [cs, 0xC0] := by simp
    rw [hdrop]
    have h := List.take_left ([h1, h2, h3] ++ p) [cs, 0xC0]
    simpa [Nat.add_comm] using h
  unfold parse_packet
  rw [hlen, h0, hlast, hty, hpay, hck, hcalc]
  simp

lemma ofVal_val_and (t : H5PacketType) :
    H5PacketType.ofVal ((t.val &&& 0x0F) &&& 0x0F) = some t := by
  cases t <;> rfl

/-- C1: for every `H5PacketType` `t` and payload `p` (bytes, any H5 state with
`seq_num < 8`), `parse_packet (create_packet t p)` returns exactly `(t, p)`;
and replacing the frame's checksum byte by any different value makes
`parse_packet` fail with the checksum-mismatch (`FrameCorrupt`) error. -/
theorem h5_roundtrip (t : H5PacketType) (p : List Nat) (seq ack : Nat)
    (hseq : seq < 8) (hp : ∀ b ∈ p, b < 256) :
    parse_packet (create_packet seq ack t p) = .ok (t, p) ∧
    ∀ c : Nat,
      c ≠ (create_packet seq ack t p).getD ((create_packet seq ack t p).length - 2) 0 →
      parse_packet ((create_packet seq ack t p).set
          ((create_packet seq ack t p).length - 2) c) = .error .checksumMismatch := by
  set h1 := (seq <<< 3) ||| (ack &&& 0x07) with hh1
  set h2 := t.val &&& 0x0F with hh2
  set h3 := p.length &&& 0xFF with hh3
  set cs := xorBytes ([h1, h2, h3] ++ p) with hcs
  have hcreate : create_packet seq ack t p = [0xC0, h1, h2, h3] ++ p ++ [cs, 0xC0] := rfl
  have hlen : (create_packet seq ack t p).length = p.length + 6 := by
    rw [hcreate]; simp
  have hgetck : (create_packet seq ack t p).getD
      ((create_packet seq ack t p).length - 2) 0 = cs := by
    rw [hcreate]
    rw [show ([0xC0, h1, h2, h3] ++ p ++ [cs, 0xC0]).length = p.length + 6 from by simp]
    rw [show [0xC0, h1, h2, h3] ++ p ++ [cs, 0xC0] = ([0xC0, h1, h2, h3] ++ p) ++ [cs, 0xC0] from by
      simp [List.append_assoc]]
    rw [List.getD_append_right _ _ _ _ (by simp)]
    simp
  constructor
  · rw [hcreate, parse_packet_shape]
    rw [if_neg (by simp [hcs])]
    rw [hh2, ofVal_val_and]
  · intro c hc
    have hset : (create_packet seq ack t p).set ((create_packet seq ack t p).length - 2) c =
        [0xC0, h1, h2, h3] ++ p ++ [c, 0xC0] := by
      rw [hcreate]
      rw [show ([0xC0, h1, h2, h3] ++ p ++ [cs, 0xC0]).length = p.length + 6 from by simp]
      rw [show [0xC0, h1, h2, h3] ++ p ++ [cs, 0xC0] = ([0xC0, h1, h2, h3] ++ p) ++ [cs, 0xC0] from by
        simp [List.append_assoc]]
      rw [List.set_append]
      simp [List.append_assoc]
    rw [hset, parse_packet_shape]
    rw [hgetck] at hc
    rw [if_pos (show xorBytes ([h1, h2, h3] ++ p) ≠ c from Ne.symm hc)]

/-- Witness for C1 at `t = HCI_EVENT`, `p = [0, 255]`, `seq = 7`, `ack = 9`,
corrupted checksum byte `0`. -/
theorem h5_roundtrip_witness :
    parse_packet (create_packet 7 9 .HCI_EVENT [0, 255]) = .ok (.HCI_EVENT, [0, 255]) ∧
    parse_packet ((create_packet 7 9 .HCI_EVENT [0, 255]).set
        ((create_packet 7 9 .HCI_EVENT [0, 255]).length - 2) 0) = .error .checksumMismatch := by
  have h := h5_roundtrip .HCI_EVENT [0, 255] 7 9 (by decide) (by decide)
  exact ⟨h.1, h.2 0 (by decide)⟩

end H5

namespace AutoConnect

/-- C3 counterexample: after the first failed attempt
(`retry_count += 1` happens before the delay is computed), the next retry
delay the code computes is `initial · 2^1 = 2` seconds, not the 1 second the
claim states. -/
theorem c3_counterexample :
    calculate_retry_delay (failAttempt 0 c3Init) = 2 ∧ (2 : ℚ) ≠ 1 := by
  constructor
  · norm_num [calculate_retry_delay, failAttempt, c3Init, c3Config, update_metrics, min_def]
  · norm_num

/-- C3 amended: with `max_retries=3`, exponential strategy, initial 1 s,
max 60 s and default `max_consecutive_failures`, the computed next retry
delay is 2 s after the first failure, 4 s after the second, 8 s after the
third, and before a fourth attempt `should_retry()` returns false. -/
theorem c3_amended :
    calculate_retry_delay (failAttempt 0 c3Init) = 2 ∧
    calculate_retry_delay (failAttempt 1 (failAttempt 0 c3Init)) = 4 ∧
    calculate_retry_delay (failAttempt 2 (failAttempt 1 (failAttempt 0 c3Init))) = 8 ∧
    ∀ now : ℚ,
      should_retry (failAttempt 2 (failAttempt 1 (failAttempt 0 c3Init))) now = false := by
  refine ⟨?_, ?_, ?_, ?_⟩
  · norm_num [calculate_retry_delay, failAttempt, c3Init, c3Config, update_metrics, min_def]
  · norm_num [calculate_retry_delay, failAttempt, c3Init, c3Config, update_metrics, min_def]
  · norm_num [calculate_retry_delay, failAttempt, c3Init, c3Config, update_metrics, min_def]
  · intro now
    rfl

/-- C7: for every `ManagedConnection` (any strategy, any retry count)
`calculate_retry_delay` never exceeds `config.max_retry_delay`; once
`metrics.consecutive_failures` reaches `config.max_consecutive_failures`,
`should_retry()` is false; a further failed attempt only grows the counter,
and only a successful attempt resets it to 0. -/
theorem c7_invariants (c : ManagedConnection) (now : ℚ) :
    calculate_retry_delay c ≤ c.config.max_retry_delay ∧
    (c.metrics.consecutive_failures ≥ c.config.max_consecutive_failures →
      should_retry c now = false) ∧
    (failAttempt now c).metrics.consecutive_failures = c.metrics.consecutive_failures + 1 ∧
    ∀ t : ℚ, (succeedAttempt now t c).metrics.consecutive_failures = 0 := by
  refine ⟨min_le_right _ _, ?_, ?_, ?_⟩
  · intro h
    unfold should_retry
    split_ifs <;> simp_all
  · rfl
  · intro t
    rcases eq_or_ne t 0 with h | h <;> simp [succeedAttempt, update_metrics, h]

/-- Witness for C7 at a connection with 3 consecutive failures under the
default configuration. -/
theorem c7_invariants_witness :
    calculate_retry_delay
        ({ config := {}, metrics := { consecutive_failures := 3 } } : ManagedConnection) ≤
      ({ config := {}, metrics := { consecutive_failures := 3 } } :
        ManagedConnection).config.max_retry_delay ∧
    should_retry
        ({ config := {}, metrics := { consecutive_failures := 3 } } : ManagedConnection) 0 =
      false ∧
    (failAttempt 0
          ({ config := {}, metrics := { consecutive_failures := 3 } } :
            ManagedConnection)).metrics.consecutive_failures =
      ({ config := {}, metrics := { consecutive_failures := 3 } } :
          ManagedConnection).metrics.consecutive_failures + 1 ∧
    ∀ t : ℚ,
      (succeedAttempt 0 t
            ({ config := {}, metrics := { consecutive_failures := 3 } } :
              ManagedConnection)).metrics.consecutive_failures = 0 :=
  ⟨(c7_invariants _ 0).1, (c7_invariants _ 0).2.1 (by decide),
   (c7_invariants _ 0).2.2.1, (c7_invariants _ 0).2.2.2⟩

end AutoConnect

namespace SCO

/-- C5: the claim fails on the code.  At `loss = 0`, `latency = 0`,
`jitter = 900` the R-factor is `3.2` and the cubic evaluates to
`0.988839424`, so the returned MOS is `0.99 < 1.0`, outside the claimed
range `[1.0, 4.5]`; and raising the packet loss to `1` (R-factor below 0)
returns `1.0 > 0.99`, violating monotone non-increase in packet loss. -/
theorem c5_mos_below_one_and_not_monotone :
    calculate_mos 0 0 900 = 99 / 100 ∧
    calculate_mos 1 0 900 = 1 ∧
    (99 / 100 : ℝ) < 1 := by
  refine ⟨?_, ?_, by norm_num⟩
  · unfold calculate_mos pyRound2
    norm_num
    rw [round_eq]
    rw [show ((7725308 : ℝ) / 78125 + 1 / 2) = 99 + 0.3839424 from by norm_num]
    rw [show ⌊(99 + 0.3839424 : ℝ)⌋ = 99 from by
      rw [Int.floor_eq_iff]
      norm_num]
    norm_num
  · have hlog : Real.log 11 > 2.07 := by
      have h8 : Real.log 8 ≤ Real.log 11 := by
        apply Real.log_le_log (by norm_num) (by norm_num)
      have h2 : Real.log 8 = 3 * Real.log 2 := by
        rw [show (8 : ℝ) = 2 ^ 3 from by norm_num, Real.log_pow]
        push_cast
        ring
      have hd9 := Real.log_two_gt_d9
      nlinarith
    unfold calculate_mos pyRound2
    norm_num
    rw [if_pos (show (466 / 5 : ℝ) - 5 / 2 * Real.log 11 < 90 from by nlinarith)]
    rw [show ((100 : ℝ)) = ((100 : ℤ) : ℝ) from by norm_num, round_intCast]
    norm_num

end SCO

namespace HexDump

set_option maxRecDepth 2000 in
lemma fmt02x_length : ∀ b : Nat, b < 256 → (fmt02x b).length = 2 := by
  have h : ∀ b : Fin 256, (fmt02x b.val).length = 2 := by decide
  intro b hb
  exact h ⟨b, hb⟩

lemma sepJoin_length_pairs :
    ∀ chunk : List Nat, chunk ≠ [] → (∀ b ∈ chunk, b < 256) →
      (hexPart chunk).length = 3 * chunk.length - 1 := by
  intro chunk
  induction chunk with
  | nil => intro h; exact absurd rfl h
  | cons b rest ih =>
    intro _ hb
    rcases rest with _ | ⟨c, rest2⟩
    · simp [hexPart, sepJoin, fmt02x_length b (hb b (by simp))]
    · have hrest := ih (by simp) (fun x hx => hb x (by simp [hx]))
      simp only [hexPart, List.map_cons, sepJoin] at hrest ⊢
      rw [List.length_append, List.length_append]
      rw [fmt02x_length b (hb b (by simp))]
      simp only [List.length_cons, List.length_nil] at hrest ⊢
      omega

/-- C8 amended: for every packet with non-empty byte data, the hex dump has
exactly `ceil(len/16)` rows; each row's chunk holds `min(16, remaining)`
bytes, its hex field is padded to exactly 48 characters (room for 16 pairs),
and its ASCII gutter prints exactly `min(16, remaining)` characters — 16 on
every row except a shorter final row — with dots substituted for
non-printable bytes. -/
theorem c8_amended (data : List Nat) (hne : data ≠ []) (hb : ∀ b ∈ data, b < 256) :
    (hexDumpLines data).length = (data.length + 15) / 16 ∧
    ∀ k, k < numRows data →
      ((data.drop (16 * k)).take 16).length = min 16 (data.length - 16 * k) ∧
      (asciiPart ((data.drop (16 * k)).take 16)).length = min 16 (data.length - 16 * k) ∧
      (padRight 48 (hexPart ((data.drop (16 * k)).take 16))).length = 48 ∧
      ∀ j, j < ((data.drop (16 * k)).take 16).length →
        (asciiPart ((data.drop (16 * k)).take 16)).get? j =
          some (if 32 ≤ data.getD (16 * k + j) 0 ∧ data.getD (16 * k + j) 0 < 127
                then Char.ofNat (data.getD (16 * k + j) 0) else '.') := by
  have hlen0 : 0 < data.length := List.length_pos.mpr hne
  refine ⟨by simp [hexDumpLines, numRows], fun k hk => ?_⟩
  have hoffset : 16 * k < data.length := by
    unfold numRows at hk
    omega
  have hchunklen : ((data.drop (16 * k)).take 16).length = min 16 (data.length - 16 * k) := by
    simp
  have hchunkpos : 0 < ((data.drop (16 * k)).take 16).length := by
    rw [hchunklen]
    omega
  have hchunkle : ((data.drop (16 * k)).take 16).length ≤ 16 := by
    rw [hchunklen]
    omega
  have hsub : ∀ b ∈ (data.drop (16 * k)).take 16, b < 256 := fun b hbmem =>
    hb b (List.mem_of_mem_drop (List.mem_of_mem_take hbmem))
  refine ⟨hchunklen, by simp [asciiPart, hchunklen], ?_, ?_⟩
  · have hhp := sepJoin_length_pairs ((data.drop (16 * k)).take 16)
      (List.length_pos.mp hchunkpos) hsub
    simp only [padRight, List.length_append, List.length_replicate, hhp]
    omega
  · intro j hj
    have hjlt16 : j < 16 := lt_of_lt_of_le hj hchunkle
    have hget : ((data.drop (16 * k)).take 16).get? j = data.get? (16 * k + j) := by
      rw [List.get?_take hjlt16, List.get?_drop]
    have hidx : 16 * k + j < data.length := by
      rw [hchunklen] at hj
      omega
    have hdata : data.get? (16 * k + j) = some (data.getD (16 * k + j) 0) := by
      rw [List.getD_eq_getElem _ _ hidx, List.get?_eq_getElem?, List.getElem?_eq_getElem hidx]
    simp only [asciiPart, List.get?_map, hget, hdata]
    rfl

/-- C8 counterexample: on the one-byte packet `[65]` the single row's ASCII
gutter is just `"A"` (length 1, not 16) — the code does not pad the gutter
on the final row. -/
theorem c8_counterexample : ¬ c8Claim := by
  intro h
  have h1 := (h [65] (by decide)).2 0 (by decide)
  simp [asciiPart] at h1


/-- Witness for C8 (amended) on the two-byte packet `[72, 0]` (`'H'` and a
non-printable byte). -/
theorem c8_amended_witness :
    (hexDumpLines [72, 0]).length = (([72, 0] : List Nat).length + 15) / 16 ∧
    ∀ k, k < numRows [72, 0] →
      ((([72, 0] : List Nat).drop (16 * k)).take 16).length =
        min 16 (([72, 0] : List Nat).length - 16 * k) ∧
      (asciiPart ((([72, 0] : List Nat).drop (16 * k)).take 16)).length =
        min 16 (([72, 0] : List Nat).length - 16 * k) ∧
      (padRight 48 (hexPart ((([72, 0] : List Nat).drop (16 * k)).take 16))).length = 48 ∧
      ∀ j, j < ((([72, 0] : List Nat).drop (16 * k)).take 16).length →
        (asciiPart ((([72, 0] : List Nat).drop (16 * k)).take 16)).get? j =
          some (if 32 ≤ ([72, 0] : List Nat).getD (16 * k + j) 0 ∧
                    ([72, 0] : List Nat).getD (16 * k + j) 0 < 127
                then Char.ofNat (([72, 0] : List Nat).getD (16 * k + j) 0) else '.') :=
  c8_amended [72, 0] (by decide) (by decide)

end HexDump

namespace HFP

lemma updateCallState_flow (n : List Char) (v : Int) (s : HFPHandlerState) :
    (updateCallState n v s).at_command_flow = s.at_command_flow := by
  unfold updateCallState
  split_ifs <;> rfl

lemma handleIndicatorEvent_getD_flow (c : List Char) (s : HFPHandlerState) :
    ((handleIndicatorEvent c s).getD s).at_command_flow = s.at_command_flow := by
  unfold handleIndicatorEvent
  dsimp only
  repeat' first
    | rfl
    | (rw [Option.getD_some, updateCallState_flow]; try rfl)
    | split_ifs
    | split

lemma handleOutgoing_flow (c : List Char) (s : HFPHandlerState) :
    (handleOutgoingCommand c s).at_command_flow = s.at_command_flow := by
  unfold handleOutgoingCommand
  split_ifs <;> first | rfl | (split <;> rfl)

lemma handleIncoming_flow (c r : List Char) (s : HFPHandlerState) :
    (handleIncomingCommand c r s).at_command_flow = s.at_command_flow := by
  unfold handleIncomingCommand
  split_ifs <;> first | rfl | (split <;> rfl) | exact handleIndicatorEvent_getD_flow c s

lemma process_flow (now : ℚ) (c r d : List Char) (s : HFPHandlerState) :
    (process_at_command now c r d s).at_command_flow =
      s.at_command_flow ++
        [{ timestamp := now, command := trimChars c, response := trimChars r,
           direction := d, state := s.state }] := by
  unfold process_at_command
  split_ifs
  · rw [handleOutgoing_flow]
  · rw [handleIncoming_flow]

lemma processList_flow (cmds : List (ℚ × List Char × List Char × List Char)) :
    ∀ s : HFPHandlerState, ∃ extra : List ATCommand,
      (processList cmds s).at_command_flow = s.at_command_flow ++ extra ∧
      extra.length = cmds.length := by
  induction cmds with
  | nil => intro s; exact ⟨[], by simp [processList], rfl⟩
  | cons c rest ih =>
    intro s
    obtain ⟨extra, he, hl⟩ := ih (process_at_command c.1 c.2.1 c.2.2.1 c.2.2.2 s)
    refine ⟨{ timestamp := c.1, command := trimChars c.2.1, response := trimChars c.2.2.1,
              direction := c.2.2.2, state := s.state } :: extra, ?_, ?_⟩
    · rw [show processList (c :: rest) s =
        processList rest (process_at_command c.1 c.2.1 c.2.2.1 c.2.2.2 s) from rfl]
      rw [he, process_flow, List.append_assoc]
      rfl
    · simp [hl]

lemma natRenderAux_shape :
    ∀ fuel n, n < fuel → ∀ c ∈ natRenderAux fuel n, ∃ d, d < 10 ∧ c = Char.ofNat (48 + d) := by
  intro fuel
  induction fuel with
  | zero => intro n hn; omega
  | succ f ih =>
    intro n hn c hc
    rw [natRenderAux] at hc
    by_cases h10 : n < 10
    · rw [if_pos h10] at hc
      simp at hc
      exact ⟨n, h10, hc⟩
    · rw [if_neg h10] at hc
      rw [List.mem_append] at hc
      rcases hc with hc | hc
      · exact ih (n / 10) (by omega) c hc
      · simp at hc
        exact ⟨n % 10, by omega, hc⟩

lemma digit_not_special : ∀ d, d < 10 →
    isDigitChar (Char.ofNat (48 + d)) = true ∧ isPySpace (Char.ofNat (48 + d)) = false ∧
    Char.ofNat (48 + d) ≠ ':' ∧ Char.ofNat (48 + d) ≠ ',' ∧
    Char.ofNat (48 + d) ≠ '-' ∧ Char.ofNat (48 + d) ≠ '+' := by
  decide

lemma natRender_digits (n : Nat) :
    ∀ c ∈ natRender n, ∃ d, d < 10 ∧ c = Char.ofNat (48 + d) :=
  natRenderAux_shape (n + 1) n (Nat.lt_succ_self n)

lemma natRender_ne_nil (n : Nat) : natRender n ≠ [] := by
  unfold natRender
  rw [natRenderAux]
  by_cases h10 : n < 10
  · rw [if_pos h10]
    simp
  · rw [if_neg h10]
    simp

lemma dropWhile_of_all_neg {p : Char → Bool} {s : List Char}
    (h : ∀ c ∈ s, p c = false) : List.dropWhile p s = s := by
  cases s with
  | nil => rfl
  | cons c cs => rw [List.dropWhile_cons_of_neg (by simp [h c (by simp)])]

lemma trimChars_eq_self {s : List Char} (h : ∀ c ∈ s, isPySpace c = false) :
    trimChars s = s := by
  unfold trimChars
  rw [dropWhile_of_all_neg h, dropWhile_of_all_neg (fun c hc => h c (by simpa using hc))]
  simp

lemma digitsVal_go (t : List Char) :
    ∀ a, t.foldl (fun x c => x * 10 + (c.toNat - 48)) a = a * 10 ^ t.length + digitsVal t := by
  induction t with
  | nil => intro a; simp [digitsVal]
  | cons c cs ih =>
    intro a
    rw [List.foldl_cons, ih]
    have h2 : digitsVal (c :: cs) = (c.toNat - 48) * 10 ^ cs.length + digitsVal cs := by
      unfold digitsVal
      rw [List.foldl_cons]
      rw [show List.foldl (fun x c => x * 10 + (c.toNat - 48)) (0 * 10 + (c.toNat - 48)) cs =
        (0 * 10 + (c.toNat - 48)) * 10 ^ cs.length + digitsVal cs from ih _]
      simp only [Nat.zero_mul, Nat.zero_add]
      rfl
    rw [h2, List.length_cons, pow_succ]
    ring

lemma digitsVal_append (s t : List Char) :
    digitsVal (s ++ t) = digitsVal s * 10 ^ t.length + digitsVal t := by
  unfold digitsVal
  rw [List.foldl_append]
  exact digitsVal_go t _

lemma digitsVal_digit (d : Nat) (hd : d < 10) :
    digitsVal [Char.ofNat (48 + d)] = d := by
  interval_cases d <;> decide

lemma natRenderAux_val : ∀ fuel n, n < fuel → digitsVal (natRenderAux fuel n) = n := by
  intro fuel
  induction fuel with
  | zero => intro n hn; omega
  | succ f ih =>
    intro n hn
    rw [natRenderAux]
    by_cases h10 : n < 10
    · rw [if_pos h10]
      exact digitsVal_digit n h10
    · rw [if_neg h10]
      rw [digitsVal_append, ih (n / 10) (by omega), digitsVal_digit (n % 10) (by omega)]
      simp
      omega

lemma natRender_val (n : Nat) : digitsVal (natRender n) = n :=
  natRenderAux_val (n + 1) n (Nat.lt_succ_self n)

lemma pyInt_natRender (n : Nat) : pyInt (natRender n) = some (n : Int) := by
  have hdig := natRender_digits n
  have htrim : trimChars (natRender n) = natRender n := by
    apply trimChars_eq_self
    intro c hc
    obtain ⟨d, hd, rfl⟩ := hdig c hc
    exact (digit_not_special d hd).2.1
  have hall : (natRender n).all isDigitChar = true := by
    rw [List.all_eq_true]
    intro c hc
    obtain ⟨d, hd, rfl⟩ := hdig c hc
    exact (digit_not_special d hd).1
  unfold pyInt
  rw [htrim]
  obtain ⟨c, cs, hcons⟩ := List.exists_cons_of_ne_nil (natRender_ne_nil n)
  obtain ⟨d, hd, hc⟩ := hdig c (by rw [hcons]; simp)
  rw [hcons]
  dsimp only
  have hnotminus : c ≠ '-' := by rw [hc]; exact (digit_not_special d hd).2.2.2.2.1
  have hnotplus : c ≠ '+' := by rw [hc]; exact (digit_not_special d hd).2.2.2.2.2
  split
  · rename_i t ds heq
    exact absurd (List.cons_eq_cons.mp heq).1 hnotminus
  · rename_i t ds heq
    exact absurd (List.cons_eq_cons.mp heq).1 hnotplus
  · rw [if_pos ⟨by simp, by rw [← hcons]; exact hall⟩]
    rw [← hcons, natRender_val]

lemma splitOnChar_not_mem {sep : Char} {s : List Char} (h : sep ∉ s) :
    splitOnChar sep s = [s] := by
  induction s with
  | nil => rfl
  | cons c cs ih =>
    rw [splitOnChar]
    rw [if_neg (by intro hc; exact h (hc ▸ List.mem_cons_self c cs))]
    rw [ih (fun hm => h (List.mem_cons_of_mem c hm))]

lemma splitOnChar_append_sep {sep : Char} {a : List Char} (b : List Char) (ha : sep ∉ a) :
    splitOnChar sep (a ++ sep :: b) = a :: splitOnChar sep b := by
  induction a with
  | nil =>
    simp only [List.nil_append]
    rw [splitOnChar, if_pos rfl]
  | cons c cs ih =>
    rw [List.cons_append, splitOnChar]
    rw [if_neg (by intro hc; exact ha (hc ▸ List.mem_cons_self c cs))]
    rw [ih (fun hm => ha (List.mem_cons_of_mem c hm))]

lemma renderCIEV_parts (i v : Nat) :
    splitOnChar ':' (renderCIEV i v) = [sToL "+CIEV", natRender i ++ ',' :: natRender v] ∧
    splitOnChar ',' (natRender i ++ ',' :: natRender v) = [natRender i, natRender v] := by
  have hdigI := natRender_digits i
  have hdigV := natRender_digits v
  have hnc : ∀ {ch : Char} {m : Nat}, ch ∈ natRender m → ch ≠ ':' ∧ ch ≠ ',' := by
    intro ch m hm
    obtain ⟨d, hd, rfl⟩ := natRender_digits m ch hm
    exact ⟨(digit_not_special d hd).2.2.1, (digit_not_special d hd).2.2.2.1⟩
  constructor
  · have : renderCIEV i v = sToL "+CIEV" ++ ':' :: (natRender i ++ ',' :: natRender v) := rfl
    rw [this, splitOnChar_append_sep _ (by decide)]
    rw [splitOnChar_not_mem]
    intro hmem
    rw [List.mem_append] at hmem
    rcases hmem with hm | hm
    · exact (hnc hm).1 rfl
    · rcases List.mem_cons.mp hm with hm | hm
      · exact absurd hm.symm (by decide)
      · exact (hnc hm).1 rfl
  · rw [splitOnChar_append_sep _ (fun hm => (hnc hm).2 rfl)]
    rw [splitOnChar_not_mem (fun hm => (hnc hm).2 rfl)]

lemma dictSetValue_eq_set (l : List (List Char × IndInfo)) :
    ∀ k (hk : k < l.length), (l.map Prod.fst).Nodup →
      ∀ w, dictSetValue l (l.get ⟨k, hk⟩).1 w = setIndicatorValue l k w := by
  induction l with
  | nil => intro k hk; simp at hk
  | cons p rest ih =>
    intro k hk hnd w
    rcases k with _ | k
    · show dictSetValue (p :: rest) p.1 w = setIndicatorValue (p :: rest) 0 w
      unfold dictSetValue
      rw [if_pos rfl]
      rfl
    · have hklt : k < rest.length := by simpa using hk
      have hnd2 : (p.1 :: rest.map Prod.fst).Nodup := by
        rw [List.map_cons] at hnd
        exact hnd
      have hnd' : (rest.map Prod.fst).Nodup := (List.nodup_cons.mp hnd2).2
      have hne : p.1 ≠ (rest.get ⟨k, hklt⟩).1 := by
        have hnotmem := (List.nodup_cons.mp hnd2).1
        intro hcontra
        apply hnotmem
        rw [hcontra]
        exact List.mem_map_of_mem Prod.fst (rest.get_mem k hklt)
      show dictSetValue (p :: rest) (rest.get ⟨k, hklt⟩).1 w =
        setIndicatorValue (p :: rest) (k + 1) w
      unfold dictSetValue
      rw [if_neg hne, ih k hklt hnd' w]
      unfold setIndicatorValue
      have hq : rest.get? k = some (rest.get ⟨k, hklt⟩) := List.get?_eq_get hklt
      rw [show (p :: rest).get? (k + 1) = rest.get? k from rfl, hq]
      rfl

theorem c10_ciev (i v : Nat) (s : HFPHandlerState)
    (hne : s.indicators ≠ []) (hnd : (s.indicators.map Prod.fst).Nodup) :
    ∃ s' : HFPHandlerState, handleIndicatorEvent (renderCIEV i v) s = some s' ∧
      (1 ≤ i → i ≤ s.indicators.length →
        s'.indicators = setIndicatorValue s.indicators (i - 1) (v : Int)) ∧
      (s.indicators.length < i → s' = s) ∧
      (i = 0 → s'.indicators = setIndicatorValue s.indicators (s.indicators.length - 1) (v : Int)) := by
  obtain ⟨hp, hq⟩ := renderCIEV_parts i v
  have hstep : handleIndicatorEvent (renderCIEV i v) s =
      (if (i : Int) ≤ ((s.indicators.map Prod.fst).length : Int) then
        match pyIndex (s.indicators.map Prod.fst) ((i : Int) - 1) with
        | some ind_name =>
          some (updateCallState ind_name (v : Int)
            { s with indicators := dictSetValue s.indicators ind_name (v : Int) })
        | none => none
      else some s) := by
    unfold handleIndicatorEvent
    rw [hp]
    dsimp only
    simp only [List.getD_cons_succ, List.getD_cons_zero]
    rw [hq]
    simp only [List.getD_cons_succ, List.getD_cons_zero]
    rw [pyInt_natRender i, pyInt_natRender v]
    norm_num
  have updInds : ∀ (n : List Char) (w : Int) (st : HFPHandlerState),
      (updateCallState n w st).indicators = st.indicators := by
    intro n w st
    unfold updateCallState
    split_ifs <;> rfl
  have hlen : (s.indicators.map Prod.fst).length = s.indicators.length :=
    List.length_map _ _
  have hnpos : 1 ≤ s.indicators.length := List.length_pos.mpr hne
  rw [hstep]
  by_cases hle : (i : Int) ≤ ((s.indicators.map Prod.fst).length : Int)
  · rw [if_pos hle]
    have hile : i ≤ s.indicators.length := by
      rw [hlen] at hle
      exact_mod_cast hle
    rcases Nat.eq_zero_or_pos i with hi0 | hipos
    · subst hi0
      have hidx : s.indicators.length - 1 < (s.indicators.map Prod.fst).length := by
        rw [hlen]
        omega
      have hidx2 : s.indicators.length - 1 < s.indicators.length := by omega
      have hpy : pyIndex (s.indicators.map Prod.fst) ((0 : Nat) - 1 : Int) =
          some ((s.indicators.map Prod.fst).get ⟨s.indicators.length - 1, hidx⟩) := by
        unfold pyIndex
        rw [if_pos (show ((0 : Nat) : Int) - 1 < 0 from by norm_num)]
        rw [if_pos (show (0 : Int) ≤ ((s.indicators.map Prod.fst).length : Int) +
          (((0 : Nat) : Int) - 1) from by omega)]
        rw [show (((s.indicators.map Prod.fst).length : Int) + (((0 : Nat) : Int) - 1)).toNat =
          s.indicators.length - 1 from by omega]
        exact List.get?_eq_get hidx
      rw [hpy]
      refine ⟨_, rfl, ?_, ?_, ?_⟩
      · intro h1
        omega
      · intro hcontra
        omega
      · intro _
        rw [updInds]
        have hgm : ((s.indicators.map Prod.fst).get ⟨s.indicators.length - 1, hidx⟩) =
            (s.indicators.get ⟨s.indicators.length - 1, hidx2⟩).1 := by
          rw [List.get_map]
        rw [hgm]
        exact dictSetValue_eq_set s.indicators (s.indicators.length - 1) hidx2 hnd _
    · have hidx : i - 1 < (s.indicators.map Prod.fst).length := by
        rw [hlen]
        omega
      have hidx2 : i - 1 < s.indicators.length := by omega
      have hpy : pyIndex (s.indicators.map Prod.fst) ((i : Int) - 1) =
          some ((s.indicators.map Prod.fst).get ⟨i - 1, hidx⟩) := by
        unfold pyIndex
        rw [if_neg (show ¬((i : Int) - 1 < 0) from by omega)]
        rw [if_pos (show (0 : Int) ≤ (i : Int) - 1 from by omega)]
        rw [show ((i : Int) - 1).toNat = i - 1 from by omega]
        exact List.get?_eq_get hidx
      rw [hpy]
      refine ⟨_, rfl, ?_, ?_, ?_⟩
      · intro _ _
        rw [updInds]
        have hgm : ((s.indicators.map Prod.fst).get ⟨i - 1, hidx⟩) =
            (s.indicators.get ⟨i - 1, hidx2⟩).1 := by
          rw [List.get_map]
        rw [hgm]
        exact dictSetValue_eq_set s.indicators (i - 1) hidx2 hnd _
      · intro hcontra
        omega
      · intro hcontra
        omega
  · rw [if_neg hle]
    refine ⟨s, rfl, ?_, fun _ => rfl, ?_⟩
    · intro h1 h2
      exfalso
      apply hle
      rw [hlen]
      exact_mod_cast h2
    · intro hi0
      exfalso
      apply hle
      subst hi0
      positivity

lemma c4Issues6_eq : analyzeLikelyIssues c4State6 =
    [sToL "Service Level Connection failed", sToL "Codec negotiation incomplete"] := by
  have h1 : c4State6.state = .SLC_CONNECTING := rfl
  have hcn : c4State6.features.codec_negotiation = true := rfl
  have hbcs : bcsSeen c4State6 = false := rfl
  have hflow : c4State6.at_command_flow.length = 6 := rfl
  have hdel : cmdDelays c4State6.at_command_flow =
      [(0 : ℚ) - 0, 0 - 0, 0 - 0, 0 - 0, 0 - 0] := rfl
  simp only [analyzeLikelyIssues, h1, hcn, hbcs, hflow, hdel]
  norm_num

lemma c4Issues7_eq : analyzeLikelyIssues c4State7 = [sToL "SCO audio connection failed"] := by
  have h1 : c4State7.state = .AUDIO_CONNECTING := rfl
  have hmem : ¬ ((sToL "mSBC") ∈ c4State7.supported_codecs) := by decide
  have hflow : c4State7.at_command_flow.length = 7 := rfl
  have hdel : cmdDelays c4State7.at_command_flow =
      [(0 : ℚ) - 0, 0 - 0, 0 - 0, 0 - 0, 0 - 0, 0 - 0] := rfl
  simp only [analyzeLikelyIssues, h1, hflow, hdel]
  norm_num [hmem]
  intro h
  exact absurd h (by decide)

/-- C4 counterexample: after the spec's trace (`AT+BRSF=0x80`,
`+BRSF:0x200`, `AT+BAC=1,2`, `AT+CIND=?`, `+CIND: ...`, `AT+CMER=3,0,0,1`)
the handler is NOT in state `connected` and the likely-issues list is NOT
empty (the parameterized `AT+BAC=1,2` and `AT+CMER=3,0,0,1` match no
dispatch branch, which compares those commands by exact equality); and
after `AT+BCC` the analyzer does NOT report "Codec negotiation incomplete"
(that issue is only emitted in the `slc_connecting` branch). -/
theorem c4_counterexample :
    c4State6.state ≠ HFPState.CONNECTED ∧
    analyzeLikelyIssues c4State6 ≠ [] ∧
    sToL "Codec negotiation incomplete" ∉ analyzeLikelyIssues c4State7 := by
  refine ⟨by decide, ?_, ?_⟩
  · rw [c4Issues6_eq]
    decide
  · rw [c4Issues7_eq]
    decide

/-- C4 amended: the trace leaves the handler in state `slc_connecting` with
likely issues exactly ["Service Level Connection failed", "Codec negotiation
incomplete"] and selected codec CVSD; processing `AT+BCC` (with no `+BCS`
reply) then puts the state at `audio_connecting` and `analyze_failure`
reports exactly ["SCO audio connection failed"]. -/
theorem c4_amended :
    c4State6.state = HFPState.SLC_CONNECTING ∧
    analyzeLikelyIssues c4State6 =
      [sToL "Service Level Connection failed", sToL "Codec negotiation incomplete"] ∧
    c4State6.selected_codec = sToL "CVSD" ∧
    c4State7.state = HFPState.AUDIO_CONNECTING ∧
    analyzeLikelyIssues c4State7 = [sToL "SCO audio connection failed"] :=
  ⟨rfl, c4Issues6_eq, rfl, rfl, c4Issues7_eq⟩

/-- C9 counterexample: 1001 `process_at_command` calls leave 1001 entries in
`at_command_flow` — more than the 1000-entry ring the claim states. -/
theorem c9_counterexample :
    (processList (List.replicate 1001 ((0 : ℚ), sToL "AT+TEST", [], sToL "TX"))
        {}).at_command_flow.length = 1001 ∧ ¬ (1001 ≤ 1000) := by
  constructor
  · obtain ⟨extra, he, hl⟩ :=
      processList_flow (List.replicate 1001 ((0 : ℚ), sToL "AT+TEST", [], sToL "TX")) {}
    rw [he]
    simp only [List.nil_append]
    rw [hl, List.length_replicate]
  · decide

/-- C9 amended: the AT command trace is unbounded — every
`process_at_command` call appends exactly one entry and nothing is ever
evicted, so after n calls the stored flow has grown by exactly n entries
(the oldest entries are all retained). -/
theorem c9_amended (cmds : List (ℚ × List Char × List Char × List Char))
    (s : HFPHandlerState) :
    ∃ extra : List ATCommand,
      (processList cmds s).at_command_flow = s.at_command_flow ++ extra ∧
      extra.length = cmds.length :=
  processList_flow cmds s

/-- C10: for every `+CIEV:<i>,<v>` event processed while at least one
indicator is registered, the handler never raises an out-of-range indexing
error: the result is always `some` state; if `1 ≤ i ≤ n` the `i`-th
indicator in registration order is updated to `v`; if `i > n` no state
changes; and if `i = 0` the event is not rejected but the last registered
indicator is updated (Python negative indexing via `i - 1 = -1`). -/
theorem c10_main (i v : Nat) (s : HFPHandlerState)
    (hne : s.indicators ≠ []) (hnd : (s.indicators.map Prod.fst).Nodup) :
    ∃ s' : HFPHandlerState, handleIndicatorEvent (renderCIEV i v) s = some s' ∧
      (1 ≤ i → i ≤ s.indicators.length →
        s'.indicators = setIndicatorValue s.indicators (i - 1) (v : Int)) ∧
      (s.indicators.length < i → s' = s) ∧
      (i = 0 →
        s'.indicators = setIndicatorValue s.indicators (s.indicators.length - 1) (v : Int)) :=
  c10_ciev i v s hne hnd

/-- Witness for C10 at `i = 2`, `v = 1` on a handler with the two
indicators `call` and `callsetup`. -/
theorem c10_main_witness :
    ∃ s' : HFPHandlerState,
      handleIndicatorEvent (renderCIEV 2 1)
          ({ indicators := [(sToL "call", { range := sToL "0,1", value := 0 }),
              (sToL "callsetup", { range := sToL "0-3", value := 0 })] } : HFPHandlerState) =
        some s' ∧
      (1 ≤ 2 → 2 ≤ ({ indicators := [(sToL "call", { range := sToL "0,1", value := 0 }),
              (sToL "callsetup", { range := sToL "0-3", value := 0 })] } :
            HFPHandlerState).indicators.length →
        s'.indicators = setIndicatorValue
          ({ indicators := [(sToL "call", { range := sToL "0,1", value := 0 }),
              (sToL "callsetup", { range := sToL "0-3", value := 0 })] } :
            HFPHandlerState).indicators (2 - 1) ((1 : Nat) : Int)) ∧
      (({ indicators := [(sToL "call", { range := sToL "0,1", value := 0 }),
              (sToL "callsetup", { range := sToL "0-3", value := 0 })] } :
            HFPHandlerState).indicators.length < 2 → s' =
        ({ indicators := [(sToL "call", { range := sToL "0,1", value := 0 }),
              (sToL "callsetup", { range := sToL "0-3", value := 0 })] } : HFPHandlerState)) ∧
      ((2 : Nat) = 0 →
        s'.indicators = setIndicatorValue
          ({ indicators := [(sToL "call", { range := sToL "0,1", value := 0 }),
              (sToL "callsetup", { range := sToL "0-3", value := 0 })] } :
            HFPHandlerState).indicators
          (({ indicators := [(sToL "call", { range := sToL "0,1", value := 0 }),
              (sToL "callsetup", { range := sToL "0-3", value := 0 })] } :
            HFPHandlerState).indicators.length - 1) ((1 : Nat) : Int)) :=
  c10_main 2 1 _ (by decide) (by decide)

end HFP

namespace PatternM

lemma keyGT_false_iff (a b : Nat × Nat) :
    keyGT a b = false ↔ (a.1 < b.1 ∨ (a.1 = b.1 ∧ a.2 ≤ b.2)) := by
  simp [keyGT]
  omega

lemma mem_insertByGT {key : Pattern → Nat × Nat} {x y : Pattern} :
    ∀ {l : List Pattern}, y ∈ insertByGT key x l ↔ y = x ∨ y ∈ l := by
  intro l
  induction l with
  | nil => simp [insertByGT]
  | cons z zs ih =>
    rw [insertByGT]
    split_ifs
    · simp
    · rw [List.mem_cons, ih]
      simp
      tauto

lemma mem_sortFold {key : Pattern → Nat × Nat} :
    ∀ (l : List Pattern) (acc : List Pattern) (y : Pattern),
      y ∈ l.foldl (fun acc x => insertByGT key x acc) acc ↔ y ∈ l ∨ y ∈ acc := by
  intro l
  induction l with
  | nil => simp
  | cons x xs ih =>
    intro acc y
    rw [List.foldl_cons, ih, mem_insertByGT]
    simp
    tauto

lemma mem_sortByKeyDesc {key : Pattern → Nat × Nat} {l : List Pattern} {y : Pattern} :
    y ∈ sortByKeyDesc key l ↔ y ∈ l := by
  unfold sortByKeyDesc
  rw [mem_sortFold]
  simp

lemma pairwise_insertByGT (key : Pattern → Nat × Nat) (x : Pattern) :
    ∀ (l : List Pattern),
      l.Pairwise (fun a b => keyGT (key b) (key a) = false) →
      (insertByGT key x l).Pairwise (fun a b => keyGT (key b) (key a) = false) := by
  intro l
  induction l with
  | nil => simp [insertByGT]
  | cons y ys ih =>
    intro hl
    rw [List.pairwise_cons] at hl
    rw [insertByGT]
    split_ifs with hgt
    · rw [List.pairwise_cons]
      constructor
      · intro z hz
        rcases List.mem_cons.mp hz with rfl | hz
        · rw [keyGT_false_iff]
          simp only [keyGT] at hgt
          simp at hgt
          omega
        · have hzy := hl.1 z hz
          rw [keyGT_false_iff] at hzy ⊢
          simp only [keyGT] at hgt
          simp at hgt
          omega
      · rw [List.pairwise_cons]
        exact hl
    · rw [List.pairwise_cons]
      constructor
      · intro z hz
        rcases mem_insertByGT.mp hz with rfl | hz
        · simpa using hgt
        · exact hl.1 z hz
      · exact ih hl.2

lemma sorted_sortByKeyDesc (key : Pattern → Nat × Nat) (l : List Pattern) :
    (sortByKeyDesc key l).Pairwise (fun a b => keyGT (key b) (key a) = false) := by
  unfold sortByKeyDesc
  suffices h : ∀ (l : List Pattern) (acc : List Pattern),
      acc.Pairwise (fun a b => keyGT (key b) (key a) = false) →
      (l.foldl (fun acc x => insertByGT key x acc) acc).Pairwise
        (fun a b => keyGT (key b) (key a) = false) by
    exact h l [] (by simp)
  intro l
  induction l with
  | nil => intro acc hacc; exact hacc
  | cons x xs ih =>
    intro acc hacc
    exact ih _ (pairwise_insertByGT key x acc hacc)

lemma mem_foldl_union (len : Nat) :
    ∀ (l : List Nat) (init : Finset ℕ) (i : ℕ),
      (i ∈ l.foldl (fun s pos => s ∪ posRange pos len) init ↔
        i ∈ init ∨ ∃ pos ∈ l, i ∈ posRange pos len) := by
  intro l
  induction l with
  | nil => simp
  | cons pos ps ih =>
    intro init i
    rw [List.foldl_cons, ih]
    simp [Finset.mem_union]
    tauto

lemma mem_patCoverage {p : Pattern} {i : ℕ} :
    i ∈ patCoverage p ↔ ∃ pos ∈ p.positions, i ∈ posRange pos p.length := by
  unfold patCoverage
  rw [mem_foldl_union]
  simp

lemma newPositions_fold_subset (len : Nat) (covered : Finset ℕ) :
    ∀ (l : List Nat) (s0 : Finset ℕ),
      s0 ⊆ l.foldl (fun s pos =>
        if posRange pos len ⊆ covered then s else s ∪ posRange pos len) s0 := by
  intro l
  induction l with
  | nil => intro s0; exact Finset.Subset.refl s0
  | cons pos ps ih =>
    intro s0
    rw [List.foldl_cons]
    split_ifs with hc
    · exact ih s0
    · exact Finset.Subset.trans Finset.subset_union_left (ih _)

lemma newPositions_fold_covers (len : Nat) (covered : Finset ℕ) :
    ∀ (l : List Nat) (s0 : Finset ℕ) (pos : Nat), pos ∈ l →
      posRange pos len ⊆ covered ∪ l.foldl (fun s pos =>
        if posRange pos len ⊆ covered then s else s ∪ posRange pos len) s0 := by
  intro l
  induction l with
  | nil => simp
  | cons q qs ih =>
    intro s0 pos hpos
    rw [List.foldl_cons]
    rcases List.mem_cons.mp hpos with rfl | hpos
    · split_ifs with hc
      · exact Finset.Subset.trans hc Finset.subset_union_left
      · exact Finset.Subset.trans
          (Finset.Subset.trans Finset.subset_union_right (newPositions_fold_subset len covered qs _))
          Finset.subset_union_right
    · exact ih _ pos hpos

lemma patNewPositions_covers (covered : Finset ℕ) (p : Pattern) :
    patCoverage p ⊆ covered ∪ patNewPositions covered p := by
  intro i hi
  rw [mem_patCoverage] at hi
  obtain ⟨pos, hpos, hrange⟩ := hi
  exact newPositions_fold_covers p.length covered p.positions ∅ pos hpos hrange

lemma newPositions_fold_witness (len : Nat) (covered : Finset ℕ) :
    ∀ (l : List Nat) (s0 : Finset ℕ),
      (s0 = ∅ ∨ ∃ i ∈ s0, i ∉ covered) →
      (l.foldl (fun s pos =>
          if posRange pos len ⊆ covered then s else s ∪ posRange pos len) s0 = ∅ ∨
        ∃ i ∈ l.foldl (fun s pos =>
          if posRange pos len ⊆ covered then s else s ∪ posRange pos len) s0, i ∉ covered) := by
  intro l
  induction l with
  | nil => intro s0 h; exact h
  | cons q qs ih =>
    intro s0 h
    rw [List.foldl_cons]
    split_ifs with hc
    · exact ih s0 h
    · apply ih
      right
      rw [Finset.not_subset] at hc
      obtain ⟨i, hir, hic⟩ := hc
      exact ⟨i, Finset.mem_union_right s0 hir, hic⟩

lemma patNewPositions_witness {covered : Finset ℕ} {p : Pattern}
    (h : patNewPositions covered p ≠ ∅) :
    ∃ i ∈ patNewPositions covered p, i ∉ covered := by
  rcases newPositions_fold_witness p.length covered p.positions ∅ (Or.inl rfl) with h0 | h0
  · exact absurd h0 h
  · exact h0

lemma newPositions_fold_sub_cov (len : Nat) (covered : Finset ℕ) (positions : List Nat) :
    ∀ (l : List Nat) (s0 : Finset ℕ), (∀ x ∈ l, x ∈ positions) →
      s0 ⊆ positions.foldl (fun s pos => s ∪ posRange pos len) ∅ →
      l.foldl (fun s pos =>
        if posRange pos len ⊆ covered then s else s ∪ posRange pos len) s0 ⊆
      positions.foldl (fun s pos => s ∪ posRange pos len) ∅ := by
  intro l
  induction l with
  | nil => intro s0 _ h; exact h
  | cons q qs ih =>
    intro s0 hmem h
    rw [List.foldl_cons]
    split_ifs with hc
    · exact ih s0 (fun x hx => hmem x (by simp [hx])) h
    · apply ih _ (fun x hx => hmem x (by simp [hx]))
      intro i hi
      rcases Finset.mem_union.mp hi with hi | hi
      · exact h hi
      · rw [mem_foldl_union]
        exact Or.inr ⟨q, hmem q (by simp), hi⟩

lemma patNewPositions_subset_coverage (covered : Finset ℕ) (p : Pattern) :
    patNewPositions covered p ⊆ patCoverage p := by
  unfold patNewPositions patCoverage
  exact newPositions_fold_sub_cov p.length covered p.positions p.positions ∅
    (fun x hx => hx) (by simp)

lemma filter_fold_mem :
    ∀ (rest : List Pattern) (kept : List Pattern) (covered : Finset ℕ) (p : Pattern),
      p ∈ (rest.foldl filterStep (kept, covered)).1 → p ∈ kept ∨ p ∈ rest := by
  intro rest
  induction rest with
  | nil => intro kept covered p hp; exact Or.inl hp
  | cons x xs ih =>
    intro kept covered p hp
    rw [List.foldl_cons] at hp
    unfold filterStep at hp
    dsimp only at hp
    split_ifs at hp with hnp
    · rcases ih _ _ p hp with hk | hr
      · rcases List.mem_append.mp hk with hk | hk
        · exact Or.inl hk
        · exact Or.inr (by simp at hk; simp [hk])
      · exact Or.inr (by simp [hr])
    · rcases ih _ _ p hp with hk | hr
      · exact Or.inl hk
      · exact Or.inr (by simp [hr])

lemma filter_fold_main :
    ∀ (rest : List Pattern) (kept : List Pattern) (covered : Finset ℕ),
      rest.Pairwise (fun a b => keyGT (b.length, b.count) (a.length, a.count) = false) →
      (∀ p ∈ kept, patCoverage p ⊆ covered) →
      (∀ p ∈ kept, ∀ x ∈ rest, x.length ≤ p.length) →
      (∀ p ∈ kept, ∃ i ∈ patCoverage p,
        ∀ q ∈ kept, p.length < q.length → i ∉ patCoverage q) →
      ∀ p ∈ (rest.foldl filterStep (kept, covered)).1,
        ∃ i ∈ patCoverage p,
          ∀ q ∈ (rest.foldl filterStep (kept, covered)).1,
            p.length < q.length → i ∉ patCoverage q := by
  intro rest
  induction rest with
  | nil =>
    intro kept covered _ _ _ hI3 p hp
    exact hI3 p hp
  | cons x xs ih =>
    intro kept covered hpw hcov hlen hI3
    rw [List.pairwise_cons] at hpw
    rw [List.foldl_cons]
    unfold filterStep
    dsimp only
    split_ifs with hnp
    · -- x is kept
      apply ih (kept ++ [x]) (covered ∪ patNewPositions covered x) hpw.2
      · intro p hp
        rcases List.mem_append.mp hp with hk | hx
        · exact Finset.Subset.trans (hcov p hk) Finset.subset_union_left
        · simp at hx
          subst hx
          exact patNewPositions_covers covered p
      · intro p hp y hy
        rcases List.mem_append.mp hp with hk | hx
        · exact hlen p hk y (by simp [hy])
        · simp at hx
          subst hx
          have := hpw.1 y hy
          rw [keyGT_false_iff] at this
          simp at this
          omega
      · intro p hp
        rcases List.mem_append.mp hp with hk | hx
        · obtain ⟨i, hi, hq⟩ := hI3 p hk
          refine ⟨i, hi, ?_⟩
          intro q hqm hql
          rcases List.mem_append.mp hqm with hqk | hqx
          · exact hq q hqk hql
          · simp at hqx
            subst hqx
            exact absurd hql (by have := hlen p hk q (by simp); omega)
        · simp at hx
          subst hx
          obtain ⟨i, hinp, hicov⟩ := patNewPositions_witness hnp
          refine ⟨i, patNewPositions_subset_coverage covered p hinp, ?_⟩
          intro q hqm hql
          rcases List.mem_append.mp hqm with hqk | hqx
          · intro hiq
            exact hicov (hcov q hqk hiq)
          · simp at hqx
            subst hqx
            omega
    · exact ih kept covered hpw.2 hcov
        (fun p hp y hy => hlen p hp y (by simp [hy])) hI3

lemma foldl_preserve {α : Type} (f : List Pattern → α → List Pattern) (Q : Pattern → Prop)
    (hf : ∀ acc a p, (∀ x ∈ acc, Q x) → p ∈ f acc a → Q p) :
    ∀ (l : List α) (acc : List Pattern), (∀ x ∈ acc, Q x) → ∀ p ∈ l.foldl f acc, Q p := by
  intro l
  induction l with
  | nil => intro acc hacc p hp; exact hacc p hp
  | cons a as ih =>
    intro acc hacc p hp
    rw [List.foldl_cons] at hp
    exact ih (f acc a) (fun x hx => hf acc a x hacc hx) p hp

lemma considerPattern_preserve (data : List Nat) (plen : Nat) :
    ∀ (acc : List Pattern) (start : Nat) (p : Pattern),
      (∀ x ∈ acc, 2 ≤ x.count) → p ∈ considerPattern data plen acc start → 2 ≤ p.count := by
  intro acc start p hacc hp
  unfold considerPattern at hp
  dsimp only at hp
  split_ifs at hp with h1 h2
  · exact hacc p hp
  · rcases List.mem_append.mp hp with hk | hx
    · exact hacc p hk
    · simp at hx
      subst hx
      simpa using h2
  · exact hacc p hp

lemma find_all_pre_count (data : List Nat) :
    ∀ p ∈ find_all_patterns_pre data, 2 ≤ p.count := by
  unfold find_all_patterns_pre
  apply foldl_preserve
  · intro acc plen p hacc hp
    exact foldl_preserve (considerPattern data plen) _
      (fun acc2 start q hacc2 hq => considerPattern_preserve data plen acc2 start q hacc2 hq)
      _ acc hacc p hp
  · intro x hx
    simp at hx

/-- C6: every pattern in the analyzer's output has `count ≥ 2` (at least
two occurrences found with the overlapping, step-1 search), and every kept
pattern covers at least one byte position not covered by any longer kept
pattern (candidates are considered in order of length descending, then
count descending). -/
theorem c6_pattern_invariants (data : List Nat) :
    ∀ p ∈ analyze_patterns data,
      2 ≤ p.count ∧
      ∃ i ∈ patCoverage p,
        ∀ q ∈ analyze_patterns data, p.length < q.length → i ∉ patCoverage q := by
  intro p hp
  unfold analyze_patterns at hp ⊢
  by_cases h : data = [] ∨ data.length < 2
  · rw [if_pos h] at hp
    simp at hp
  · rw [if_neg h] at hp ⊢
    rw [mem_sortByKeyDesc] at hp
    unfold find_all_patterns filter_overlapping_patterns at hp ⊢
    have hmem : p ∈ find_all_patterns_pre data := by
      rcases filter_fold_mem _ _ _ p hp with hk | hr
      · simp at hk
      · exact mem_sortByKeyDesc.mp hr
    refine ⟨find_all_pre_count data p hmem, ?_⟩
    obtain ⟨i, hi, hq⟩ := filter_fold_main
      (sortByKeyDesc (fun p => (p.length, p.count)) (find_all_patterns_pre data)) [] ∅
      (sorted_sortByKeyDesc _ _) (by simp) (by simp) (by simp) p hp
    refine ⟨i, hi, ?_⟩
    intro q hqm hql
    rw [mem_sortByKeyDesc] at hqm
    exact hq q hqm hql

/-- Witness for C6 on `data = [1,2,1,2]`, whose analysis yields the single
pattern `[1,2]` at positions 0 and 2. -/
theorem c6_pattern_invariants_witness :
    2 ≤ c6WitnessPattern.count ∧
    ∃ i ∈ patCoverage c6WitnessPattern,
      ∀ q ∈ analyze_patterns [1, 2, 1, 2],
        c6WitnessPattern.length < q.length → i ∉ patCoverage q :=
  c6_pattern_invariants [1, 2, 1, 2] _ (by
    rw [show analyze_patterns [1, 2, 1, 2] = [c6WitnessPattern] from rfl]
    exact List.mem_singleton.mpr rfl)

end PatternM
